import Mathlib

/-!
# HTU21DF humidity / temperature sensor driver (mongoose-os-libs/htu21df-i2c)

A shallow embedding of `src/mgos_htu21df.c` and `include/mgos_htu21df.h`.

* `uint8_t`, `uint16_t` and `uint32_t` values are natural numbers, truncated with an
  explicit `% 2^w` wherever the C code stores into a variable of that width.
* `float` and `double` values (temperature, humidity, clock readings, durations) are exact
  rationals: rounding is not modelled.
* The I2C transport is an external collaborator.  It is a pair of functions of the history
  of events seen so far; every call the driver makes is appended to that history, so that
  "no bus operation is issued" is the statement that the history did not grow.
* `mg_time()` is called at most twice by a read; the two readings are arguments
  (`start`, `finish`).
-/

namespace Htu21df

/-! ## Collaborators -/

/-- One call made by the driver to a collaborator. -/
inductive Event where
  | i2c_write (addr : Nat) (data : List Nat)
  | i2c_read (addr : Nat) (len : Nat)
  | usleep (usecs : Nat)
  deriving DecidableEq, Repr

/-- The behaviour of a bus (`struct mgos_i2c`): whether a write succeeds and what a read
delivers (`none` when the read fails), both as functions of the events so far. -/
structure mgos_i2c where
  write : List Event → Nat → List Nat → Bool
  read : List Event → Nat → Nat → Option (List Nat)

/-- The call `mgos_i2c_write(i2c, addr, data, len, true)`. -/
def mgos_i2c_write (i2c : mgos_i2c) (addr : Nat) (data : List Nat) (tr : List Event) :
    Bool × List Event :=
  (i2c.write tr addr data, tr ++ [Event.i2c_write addr data])

/-- The call `mgos_i2c_read(i2c, addr, buf, len, true)`: on success the buffer holds `len`
bytes (`uint8_t`), byte `i` being entry `i` of what the bus delivers, truncated to 8 bits
(0 if the bus delivers fewer entries). -/
def mgos_i2c_read (i2c : mgos_i2c) (addr len : Nat) (tr : List Event) :
    Option (List Nat) × List Event :=
  ((i2c.read tr addr len).map
      (fun bytes => (List.range len).map (fun i => bytes.getD i 0 % 256)),
    tr ++ [Event.i2c_read addr len])

/-- The call `mgos_usleep(usecs)`. -/
def mgos_usleep (usecs : Nat) (tr : List Event) : List Event :=
  tr ++ [Event.usleep usecs]

/-- The command bytes `MGOS_HTU21DF_*` of `mgos_htu21df_internal.h`, a header that is not
among the sources: they are parameters of the development. -/
structure Opcodes where
  MGOS_HTU21DF_RESET : Nat
  MGOS_HTU21DF_READREG : Nat
  MGOS_HTU21DF_READTEMP : Nat
  MGOS_HTU21DF_READHUM : Nat

/-! ## Data model -/

/-- The constant `MGOS_HTU21DF_READ_DELAY`, in seconds. -/
def MGOS_HTU21DF_READ_DELAY : ℚ := 2

/-- The statistics block `struct mgos_htu21df_stats`. -/
structure mgos_htu21df_stats where
  last_read_time : ℚ
  read : Nat
  read_success : Nat
  read_success_cached : Nat
  read_success_usecs : ℚ

/-- Modelled from the spec: `struct mgos_htu21df` is declared in
`mgos_htu21df_internal.h`, which is not among the sources.  The fields are those of the
sensor handle of the specification (bus, address, last temperature and humidity,
statistics) under the names by which `mgos_htu21df.c` accesses them.  A null `i2c` pointer
is `none`. -/
structure mgos_htu21df where
  i2c : Option mgos_i2c
  i2caddr : Nat
  stats : mgos_htu21df_stats
  temperature : ℚ
  humidity : ℚ

/-- What a driver function leaves behind: its return value, the handle (a null handle is
`none`) and the history of events. -/
structure Outcome (α : Type) where
  ret : α
  sensor : Option mgos_htu21df
  trace : List Event

/-! ## Private functions -/

/-- The function `mgos_htu21df_cmd`. -/
def mgos_htu21df_cmd (sensor : Option mgos_htu21df) (cmd : Nat) (tr : List Event) :
    Bool × List Event :=
  match sensor with
  | none => (false, tr)
  | some s =>
    match s.i2c with
    | none => (false, tr)
    | some i2c =>
      let w := mgos_i2c_write i2c s.i2caddr [cmd] tr
      if !w.1 then (false, w.2) else (true, w.2)

/-- One pass of the inner loop of `crc8`:
`crc = (crc & 0x80) ? (crc << 1) ^ poly : (crc << 1)`, stored into a `uint8_t`. -/
def crc8_shift (crc : Nat) : Nat :=
  let poly := 0x31
  if crc &&& 0x80 ≠ 0 then ((crc <<< 1) ^^^ poly) % 256 else (crc <<< 1) % 256

/-- The inner loop of `crc8`, `for (int i = 8; i; --i)`, started with counter `i`. -/
def crc8_inner : Nat → Nat → Nat
  | 0, crc => crc
  | i + 1, crc => crc8_inner i (crc8_shift crc)

/-- The outer loop of `crc8` over the bytes that are left, `crc ^= *data++` first. -/
def crc8_outer : List Nat → Nat → Nat
  | [], crc => crc
  | b :: rest, crc => crc8_outer rest (crc8_inner 8 ((crc ^^^ b) % 256))

/-- The function `crc8(data, len)`; `data` lists the `len` bytes that the pointer gives. -/
def crc8 (data : List Nat) : Nat :=
  crc8_outer data 0x00

/-! ## Public functions -/

/-- The all-zero statistics block that `calloc` and `memset` leave. -/
def zero_stats : mgos_htu21df_stats :=
  { last_read_time := 0, read := 0, read_success := 0, read_success_cached := 0,
    read_success_usecs := 0 }

/-- The function `mgos_htu21df_create`.  `calloc_ok` tells whether the allocation
succeeds.  The result is the handle (`none` for `NULL`) and the history of events. -/
def mgos_htu21df_create (regs : Opcodes) (i2c : Option mgos_i2c) (i2caddr : Nat)
    (calloc_ok : Bool) (tr : List Event) : Option mgos_htu21df × List Event :=
  match i2c with
  | none => (none, tr)
  | some bus =>
    if !calloc_ok then (none, tr)
    else
      let sensor : mgos_htu21df :=
        { i2c := some bus, i2caddr := i2caddr, stats := zero_stats,
          temperature := 0, humidity := 0 }
      let tr1 := (mgos_htu21df_cmd (some sensor) regs.MGOS_HTU21DF_RESET tr).2
      let tr2 := mgos_usleep 25000 tr1
      let tr3 := (mgos_htu21df_cmd (some sensor) regs.MGOS_HTU21DF_READREG tr2).2
      match mgos_i2c_read bus sensor.i2caddr 1 tr3 with
      | (none, tr4) => (none, tr4)
      | (some buf, tr4) =>
        let version := buf.getD 0 0
        if version = 0x02 then (some sensor, tr4) else (none, tr4)

/-- The function `mgos_htu21df_read`; `start` is the value of `mg_time()` on entry and
`finish` its value at the end of a complete measurement. -/
def mgos_htu21df_read (regs : Opcodes) (sensor : Option mgos_htu21df) (start finish : ℚ)
    (tr : List Event) : Outcome Bool :=
  match sensor with
  | none => ⟨false, none, tr⟩
  | some s0 =>
    match s0.i2c with
    | none => ⟨false, some s0, tr⟩
    | some bus =>
      let s1 : mgos_htu21df :=
        { s0 with stats := { s0.stats with read := (s0.stats.read + 1) % 2 ^ 32 } }
      if start - s1.stats.last_read_time < MGOS_HTU21DF_READ_DELAY then
        ⟨true,
          some { s1 with stats := { s1.stats with
            read_success_cached := (s1.stats.read_success_cached + 1) % 2 ^ 32 } },
          tr⟩
      else
        let tr1 := (mgos_htu21df_cmd (some s1) regs.MGOS_HTU21DF_READTEMP tr).2
        let tr2 := mgos_usleep 50000 tr1
        match mgos_i2c_read bus s1.i2caddr 3 tr2 with
        | (none, tr3) => ⟨false, some s1, tr3⟩
        | (some data, tr3) =>
          if data.getD 2 0 ≠ crc8 (data.take 2) then ⟨false, some s1, tr3⟩
          else
            let temp : Nat := ((data.getD 0 0 <<< 8) + data.getD 1 0) % 2 ^ 16
            let temperature : ℚ := temp
            let temperature := temperature * 175.72
            let temperature := temperature / 65536
            let temperature := temperature - 46.85
            let s2 : mgos_htu21df := { s1 with temperature := temperature }
            let tr4 := (mgos_htu21df_cmd (some s2) regs.MGOS_HTU21DF_READHUM tr3).2
            let tr5 := mgos_usleep 50000 tr4
            match mgos_i2c_read bus s2.i2caddr 3 tr5 with
            | (none, tr6) => ⟨false, some s2, tr6⟩
            | (some data, tr6) =>
              if data.getD 2 0 ≠ crc8 (data.take 2) then ⟨false, some s2, tr6⟩
              else
                let hum : Nat := ((data.getD 0 0 <<< 8) + data.getD 1 0) % 2 ^ 16
                let humidity : ℚ := hum
                let humidity := humidity * 125
                let humidity := humidity / 65536
                let humidity := humidity - 6
                let s3 : mgos_htu21df := { s2 with humidity := humidity }
                let s4 : mgos_htu21df :=
                  { s3 with stats := { s3.stats with
                      read_success := (s3.stats.read_success + 1) % 2 ^ 32 } }
                let s5 : mgos_htu21df :=
                  { s4 with stats := { s4.stats with
                      read_success_usecs :=
                        s4.stats.read_success_usecs + 1000000 * (finish - start) } }
                let s6 : mgos_htu21df :=
                  { s5 with stats := { s5.stats with last_read_time := start } }
                ⟨true, some s6, tr6⟩

/-- The function `mgos_htu21df_getTemperature`; the value `NAN` is `none`. -/
def mgos_htu21df_getTemperature (regs : Opcodes) (sensor : Option mgos_htu21df)
    (start finish : ℚ) (tr : List Event) : Outcome (Option ℚ) :=
  let r := mgos_htu21df_read regs sensor start finish tr
  if !r.ret then ⟨none, r.sensor, r.trace⟩
  else ⟨r.sensor.map (fun s => s.temperature), r.sensor, r.trace⟩

/-- The function `mgos_htu21df_getHumidity`; the value `NAN` is `none`. -/
def mgos_htu21df_getHumidity (regs : Opcodes) (sensor : Option mgos_htu21df)
    (start finish : ℚ) (tr : List Event) : Outcome (Option ℚ) :=
  let r := mgos_htu21df_read regs sensor start finish tr
  if !r.ret then ⟨none, r.sensor, r.trace⟩
  else ⟨r.sensor.map (fun s => s.humidity), r.sensor, r.trace⟩

/-- The function `mgos_htu21df_getStats`; `stats` is what the destination pointer gives
(`none` for a null pointer).  The result is the return value and the destination after
the call. -/
def mgos_htu21df_getStats (sensor : Option mgos_htu21df) (stats : Option mgos_htu21df_stats) :
    Bool × Option mgos_htu21df_stats :=
  match sensor, stats with
  | none, d => (false, d)
  | some _, none => (false, none)
  | some s, some _ => (true, some s.stats)

/-! ## Notions used to state the properties -/

/-- The attempt counter after `stats.read++`. -/
def attempted (s : mgos_htu21df) : mgos_htu21df :=
  { s with stats := { s.stats with read := (s.stats.read + 1) % 2 ^ 32 } }

/-- The handle after `stats.read++` and `stats.read_success_cached++`. -/
def cache_hit (s : mgos_htu21df) : mgos_htu21df :=
  { attempted s with stats := { (attempted s).stats with
      read_success_cached := (s.stats.read_success_cached + 1) % 2 ^ 32 } }

/-- The events of the temperature request of a read: command write and 50 ms wait. -/
def temp_request (regs : Opcodes) (addr : Nat) : List Event :=
  [Event.i2c_write addr [regs.MGOS_HTU21DF_READTEMP], Event.usleep 50000]

/-- The events of the humidity request of a read: command write and 50 ms wait. -/
def hum_request (regs : Opcodes) (addr : Nat) : List Event :=
  [Event.i2c_write addr [regs.MGOS_HTU21DF_READHUM], Event.usleep 50000]

/-- The events of a complete measurement. -/
def measure_events (regs : Opcodes) (addr : Nat) : List Event :=
  temp_request regs addr ++ [Event.i2c_read addr 3] ++ hum_request regs addr ++
    [Event.i2c_read addr 3]

/-- The buffer after the 3-byte temperature transfer of an uncached read that starts with
history `tr` (`none` when the bus read fails). -/
def temp_transfer (regs : Opcodes) (bus : mgos_i2c) (addr : Nat) (tr : List Event) :
    Option (List Nat) :=
  (mgos_i2c_read bus addr 3 (tr ++ temp_request regs addr)).1

/-- The buffer after the 3-byte humidity transfer of an uncached read that starts with
history `tr` (`none` when the bus read fails). -/
def hum_transfer (regs : Opcodes) (bus : mgos_i2c) (addr : Nat) (tr : List Event) :
    Option (List Nat) :=
  (mgos_i2c_read bus addr 3
    (tr ++ temp_request regs addr ++ [Event.i2c_read addr 3] ++ hum_request regs addr)).1

/-- The events of the probe of `mgos_htu21df_create` before its identity read: reset
command, 25 ms wait, read-register command. -/
def probe_request (regs : Opcodes) (addr : Nat) : List Event :=
  [Event.i2c_write addr [regs.MGOS_HTU21DF_RESET], Event.usleep 25000,
    Event.i2c_write addr [regs.MGOS_HTU21DF_READREG]]

/-- The buffer after the one-byte identity read of a create that starts with history `tr`
(`none` when the bus read fails). -/
def identity_transfer (regs : Opcodes) (bus : mgos_i2c) (addr : Nat) (tr : List Event) :
    Option (List Nat) :=
  (mgos_i2c_read bus addr 1 (tr ++ probe_request regs addr)).1

/-- The checksum test of a read on a 3-byte buffer: `data[2] == crc8(data, 2)`. -/
def crc_ok (data : List Nat) : Prop :=
  data.getD 2 0 = crc8 (data.take 2)

instance (data : List Nat) : Decidable (crc_ok data) := by
  unfold crc_ok; infer_instance

/-- A 3-byte transfer is accepted by a read when the bus read succeeds and the checksum
test passes; it is not accepted when the bus read fails or the checksum byte differs from
the `crc8` of the two data bytes. -/
def accepted : Option (List Nat) → Prop
  | none => False
  | some data => crc_ok data

instance (x : Option (List Nat)) : Decidable (accepted x) := by
  cases x <;> unfold accepted <;> infer_instance

/-- The 16-bit raw value of a buffer, `(data[0] << 8) + data[1]` stored in a `uint16_t`. -/
def raw16 (data : List Nat) : Nat :=
  ((data.getD 0 0 <<< 8) + data.getD 1 0) % 2 ^ 16

/-- The conversion of the temperature in `mgos_htu21df_read` (lines 130 to 133): the raw
value as a `float`, times 175.72, divided by 65536, minus 46.85. -/
def temperature_of_raw (temp : Nat) : ℚ :=
  (temp : ℚ) * 175.72 / 65536 - 46.85

/-- The conversion of the humidity in `mgos_htu21df_read` (lines 148 to 151): the raw
value as a `float`, times 125, divided by 65536, minus 6. -/
def humidity_of_raw (hum : Nat) : ℚ :=
  (hum : ℚ) * 125 / 65536 - 6

/-! ## Sequences of calls -/

/-- One call of the public interface on a handle, with the clock readings it sees (for
the calls that read) or the destination it is given (for `getStats`). -/
inductive Call where
  | read (start finish : ℚ)
  | getTemperature (start finish : ℚ)
  | getHumidity (start finish : ℚ)
  | getStats (dest : Option mgos_htu21df_stats)

/-- Whether a call makes a read attempt. -/
def Call.is_attempt : Call → Bool
  | Call.getStats _ => false
  | _ => true

/-- The clock value on entry of a call that makes a read attempt. -/
def Call.entry_time : Call → Option ℚ
  | Call.read start _ => some start
  | Call.getTemperature start _ => some start
  | Call.getHumidity start _ => some start
  | Call.getStats _ => none

/-- The number of read attempts in a sequence of calls. -/
def attempts (calls : List Call) : Nat :=
  (calls.filter Call.is_attempt).length

/-- The state of a run: the handle, the history of events, and the number of read
attempts so far that returned failure (`false`, or `NAN` from the two getters). -/
structure RunState where
  sensor : Option mgos_htu21df
  trace : List Event
  errors : Nat

/-- The effect of one call on the state of a run. -/
def step (regs : Opcodes) (st : RunState) (c : Call) : RunState :=
  match c with
  | Call.read start finish =>
    let r := mgos_htu21df_read regs st.sensor start finish st.trace
    ⟨r.sensor, r.trace, if r.ret then st.errors else st.errors + 1⟩
  | Call.getTemperature start finish =>
    let r := mgos_htu21df_getTemperature regs st.sensor start finish st.trace
    ⟨r.sensor, r.trace, if r.ret.isSome then st.errors else st.errors + 1⟩
  | Call.getHumidity start finish =>
    let r := mgos_htu21df_getHumidity regs st.sensor start finish st.trace
    ⟨r.sensor, r.trace, if r.ret.isSome then st.errors else st.errors + 1⟩
  | Call.getStats _ => st

/-- The state after a sequence of calls. -/
def run (regs : Opcodes) (st : RunState) (calls : List Call) : RunState :=
  calls.foldl (step regs) st

/-- The three counters of a handle: attempts, successful reads, cache hits. -/
def counters (s : mgos_htu21df) : Nat × Nat × Nat :=
  (s.stats.read, s.stats.read_success, s.stats.read_success_cached)

/-- The invariant of a run on a handle with transport `bus` after `n` read attempts: the
handle is there, the attempt counter is `n`, and it is the sum of the two success counters
and the number of failed attempts. -/
def RunInv (bus : mgos_i2c) (st : RunState) (n : Nat) : Prop :=
  ∃ s, st.sensor = some s ∧ s.i2c = some bus ∧ s.stats.read = n ∧
    s.stats.read = s.stats.read_success + s.stats.read_success_cached + st.errors

/-! ## Reference CRC-8: the remainder of a polynomial division over GF(2) -/

/-- The coefficients of a byte, read as a polynomial of degree below 8 over GF(2), from
the coefficient of x^7 down to the constant. -/
def byte_bits (b : Nat) : List Bool :=
  [b.testBit 7, b.testBit 6, b.testBit 5, b.testBit 4, b.testBit 3, b.testBit 2, b.testBit 1,
    b.testBit 0]

/-- The coefficients of the message polynomial, highest degree first: the bits of the
bytes in order, each byte most significant bit first. -/
def message_bits : List Nat → List Bool
  | [] => []
  | b :: rest => byte_bits b ++ message_bits rest

/-- One step of the long division by x^8 + x^5 + x^4 + 1 (0x131): the remainder `r` of the
coefficients seen so far is multiplied by x, the next coefficient is added, and the divisor
is subtracted when the degree has reached 8. -/
def gf2_rem_step (r : Nat) (bit : Bool) : Nat :=
  let t := 2 * r + bit.toNat
  if t.testBit 8 then t ^^^ 0x131 else t

/-- The remainder modulo x^8 + x^5 + x^4 + 1 of the polynomial over GF(2) whose
coefficients, highest degree first, are `bits`; a remainder is the number whose binary
digits are its coefficients. -/
def gf2_rem (bits : List Bool) : Nat :=
  bits.foldl gf2_rem_step 0

/-- The reference CRC-8: the remainder of the message polynomial times x^8. -/
def crc8_reference (data : List Nat) : Nat :=
  gf2_rem (message_bits data ++ List.replicate 8 false)

/-- The number whose binary digits, most significant first, are `bits`: the polynomial with
these coefficients, as a number. -/
def bits_value (bits : List Bool) : Nat :=
  bits.foldl (fun acc b => 2 * acc + b.toNat) 0

/-- The product over GF(2) of the polynomial with coefficients `q` (highest degree first)
and the polynomial `g` (a number whose binary digits are its coefficients). -/
def gf2_mul (q : List Bool) (g : Nat) : Nat :=
  q.foldl (fun acc b => (2 * acc) ^^^ (if b then g else 0)) 0

/-! ## Bit errors in a frame -/

/-- The bytes `frame` with `mask` added over GF(2) to the byte at index `i`. -/
def flip_at : List Nat → Nat → Nat → List Nat
  | [], _, _ => []
  | b :: rest, 0, mask => (b ^^^ mask) :: rest
  | b :: rest, i + 1, mask => b :: flip_at rest i mask

/-- The frame with the bit at position `p` flipped: bit `p % 8` of the byte at index
`p / 8`; the 24 bits of a 3-byte frame are the positions 0 to 23. -/
def flip_bit (frame : List Nat) (p : Nat) : List Nat :=
  flip_at frame (p / 8) (2 ^ (p % 8))

/-- The frame with the bits at the positions `ps` flipped, one after the other. -/
def flip_bits (frame : List Nat) (ps : List Nat) : List Nat :=
  ps.foldl flip_bit frame

/-- The part of the error at position `p` that falls into the byte at index `i`. -/
def error_byte (i p : Nat) : Nat :=
  if p / 8 = i then 2 ^ (p % 8) else 0

/-- Whether no error at three positions `i < j < k` is a frame with a valid checksum. -/
def triple_errors_detected : Bool :=
  (List.range 24).all fun i => (List.range 24).all fun j => (List.range 24).all fun k =>
    !(decide (i < j) && decide (j < k)) ||
      (error_byte 2 i ^^^ error_byte 2 j ^^^ error_byte 2 k
        != crc8 [error_byte 0 i ^^^ error_byte 0 j ^^^ error_byte 0 k,
            error_byte 1 i ^^^ error_byte 1 j ^^^ error_byte 1 k])

/-! ## Concrete scenarios -/

/-- The command bytes of the HTU21D datasheet (reset, read user register, measure
temperature, measure humidity), used in the concrete scenarios. -/
def datasheet_opcodes : Opcodes :=
  { MGOS_HTU21DF_RESET := 0xFE, MGOS_HTU21DF_READREG := 0xE7,
    MGOS_HTU21DF_READTEMP := 0xE3, MGOS_HTU21DF_READHUM := 0xE5 }

/-- A bus on which every write succeeds and every read delivers the bytes `02 02 02 ..`:
a device that answers the identity read of `mgos_htu21df_create` with 0x02. -/
def identity_bus : mgos_i2c :=
  { write := fun _ _ _ => true, read := fun _ _ len => some (List.replicate len 0x02) }

/-- The handle that `mgos_htu21df_create` returns on bus `bus` at address 0x40. -/
def handle_on (bus : mgos_i2c) : mgos_htu21df :=
  { i2c := some bus, i2caddr := 0x40, stats := zero_stats, temperature := 0, humidity := 0 }

/-- The handle that `mgos_htu21df_create` returns for `identity_bus` at address 0x40. -/
def fresh_handle : mgos_htu21df :=
  handle_on identity_bus

/-- A bus on which every write succeeds, the third call (the temperature transfer of a
read started on an empty history) delivers the valid frame `64 00 D6`, and every other
read fails. -/
def temp_only_bus : mgos_i2c :=
  { write := fun _ _ _ => true,
    read := fun tr _ _ => if tr.length = 2 then some [0x64, 0x00, 0xD6] else none }

/-- A bus on which every write succeeds, the temperature transfer of a read started on an
empty history delivers `64 00 crc8(64 00)` and every other read delivers
`32 00 crc8(32 00)`. -/
def scenario_bus : mgos_i2c :=
  { write := fun _ _ _ => true,
    read := fun tr _ _ =>
      if tr.length = 2 then some [0x64, 0x00, crc8 [0x64, 0x00]]
      else some [0x32, 0x00, crc8 [0x32, 0x00]] }

/-- The handle `handle_on scenario_bus` after a first read that starts at clock value 10
and is complete at clock value 10.1. -/
def scenario_after_first_read : mgos_htu21df :=
  { i2c := some scenario_bus, i2caddr := 0x40,
    stats :=
      { last_read_time := 10, read := 1, read_success := 1, read_success_cached := 0,
        read_success_usecs := 100000 },
    temperature := 21.790625, humidity := 18.4140625 }

/-- A bus on which every write fails and the reads deliver what `scenario_bus` delivers. -/
def write_fail_bus : mgos_i2c :=
  { write := fun _ _ _ => false, read := scenario_bus.read }

/-- A bus on which every write succeeds and every read delivers the frame
`FF FF crc8(FF FF)`: the largest raw value. -/
def full_scale_bus : mgos_i2c :=
  { write := fun _ _ _ => true, read := fun _ _ _ => some [0xFF, 0xFF, crc8 [0xFF, 0xFF]] }

/-- A bus on which every write succeeds and every read delivers the frame
`00 00 crc8(00 00)`: the smallest raw value. -/
def zero_scale_bus : mgos_i2c :=
  { write := fun _ _ _ => true, read := fun _ _ _ => some [0x00, 0x00, crc8 [0x00, 0x00]] }

/-- A bus on which every write fails and every read delivers the bytes `02 02 02 ..`. -/
def write_fail_identity_bus : mgos_i2c :=
  { write := fun _ _ _ => false, read := identity_bus.read }

/-- A bus on which every write succeeds and every read fails. -/
def read_fail_bus : mgos_i2c :=
  { write := fun _ _ _ => true, read := fun _ _ _ => none }

/-- A handle whose transport reference is null, with counters and values that are not
zero. -/
def orphan_handle : mgos_htu21df :=
  { i2c := none, i2caddr := 0x40,
    stats :=
      { last_read_time := 10, read := 7, read_success := 3, read_success_cached := 2,
        read_success_usecs := 300000 },
    temperature := 21.5, humidity := 40 }

/-! ## The checksum -/

theorem and_0x80_ne_zero (c : Nat) : (c &&& 0x80 ≠ 0) ↔ c.testBit 7 = true := by
  have h : c &&& 0x80 = (c.testBit 7).toNat * 2 ^ 7 := Nat.and_two_pow c 7
  rw [h]
  cases c.testBit 7 <;> simp

theorem crc8_shift_eq (c : Nat) :
    crc8_shift c = ((c <<< 1) ^^^ (if c.testBit 7 then 0x31 else 0)) % 256 := by
  unfold crc8_shift
  by_cases h : c.testBit 7 = true
  · simp [(and_0x80_ne_zero c).2 h, h]
  · have h' : ¬ (c &&& 0x80 ≠ 0) := fun hc => h ((and_0x80_ne_zero c).1 hc)
    simp only [h', if_false]
    simp [h]

theorem crc8_shift_xor (a b : Nat) :
    crc8_shift (a ^^^ b) = crc8_shift a ^^^ crc8_shift b := by
  rw [crc8_shift_eq, crc8_shift_eq, crc8_shift_eq]
  apply Nat.eq_of_testBit_eq
  intro i
  have h256 : (256 : Nat) = 2 ^ 8 := by norm_num
  rw [h256]
  have hif : ∀ c : Bool, (if c = true then 49 else 0 : Nat).testBit i
      = (c && Nat.testBit 49 i) := by
    intro c; cases c <;> simp
  simp only [Nat.testBit_mod_two_pow, Nat.testBit_xor, Nat.testBit_shiftLeft, hif]
  generalize a.testBit 7 = a7
  generalize b.testBit 7 = b7
  generalize a.testBit (i - 1) = x
  generalize b.testBit (i - 1) = y
  generalize Nat.testBit 49 i = p
  generalize decide (i < 8) = c
  generalize decide (i ≥ 1) = d
  cases a7 <;> cases b7 <;> cases x <;> cases y <;> cases p <;> cases c <;> cases d <;> rfl

theorem crc8_shift_lt (c : Nat) : crc8_shift c < 256 := by
  rw [crc8_shift_eq]; exact Nat.mod_lt _ (by norm_num)

theorem crc8_inner_xor (n a b : Nat) :
    crc8_inner n (a ^^^ b) = crc8_inner n a ^^^ crc8_inner n b := by
  induction n generalizing a b with
  | zero => rfl
  | succ n ih => simp only [crc8_inner, crc8_shift_xor, ih]

theorem crc8_inner_lt (n c : Nat) (h : c < 256) : crc8_inner n c < 256 := by
  induction n generalizing c with
  | zero => exact h
  | succ n ih => exact ih _ (crc8_shift_lt c)

set_option maxRecDepth 100000 in
/-- On a remainder (below 256) a division step is a `crc8` shift with the new coefficient
added. -/
theorem gf2_rem_step_eq (r : Nat) (bit : Bool) (h : r < 256) :
    gf2_rem_step r bit = crc8_shift r ^^^ bit.toNat := by
  have key : ∀ b : Bool, ∀ r < 256, gf2_rem_step r b = crc8_shift r ^^^ b.toNat := by
    decide
  exact key bit r h

theorem gf2_rem_step_lt (r : Nat) (bit : Bool) (h : r < 256) : gf2_rem_step r bit < 256 := by
  rw [gf2_rem_step_eq r bit h]
  exact Nat.xor_lt_two_pow (n := 8) (crc8_shift_lt r) (by cases bit <;> decide)

/-- Feeding coefficients into the `crc8` shift register. -/
theorem foldl_step_lt (bits : List Bool) (r : Nat) (h : r < 256) :
    bits.foldl gf2_rem_step r < 256 := by
  induction bits generalizing r with
  | nil => exact h
  | cons b bs ih => exact ih _ (gf2_rem_step_lt r b h)

theorem foldl_step_zeros (n r : Nat) (h : r < 256) :
    (List.replicate n false).foldl gf2_rem_step r = crc8_inner n r := by
  induction n generalizing r with
  | zero => rfl
  | succ n ih =>
    simp only [List.replicate_succ, List.foldl_cons, crc8_inner]
    rw [gf2_rem_step_eq r false h]
    simpa using ih (crc8_shift r) (crc8_shift_lt r)

/-- Linearity of the division: a register content `c` that is present before `bits` are
fed in comes out shifted `bits.length` times, added to what `bits` alone give. -/
theorem foldl_step_xor (bits : List Bool) (a c : Nat) (ha : a < 256) (hc : c < 256) :
    bits.foldl gf2_rem_step (a ^^^ c)
      = crc8_inner bits.length a ^^^ bits.foldl gf2_rem_step c := by
  induction bits generalizing a c with
  | nil => simp [crc8_inner]
  | cons b bs ih =>
    have hac : a ^^^ c < 256 := Nat.xor_lt_two_pow (n := 8) ha hc
    simp only [List.foldl_cons, List.length_cons, crc8_inner]
    rw [gf2_rem_step_eq _ b hac, gf2_rem_step_eq _ b hc, crc8_shift_xor, Nat.xor_assoc,
      ← gf2_rem_step_eq c b hc]
    exact ih _ _ (crc8_shift_lt a) (gf2_rem_step_lt c b hc)

set_option maxRecDepth 100000 in
theorem foldl_byte_bits (b : Nat) (h : b < 256) :
    (byte_bits b).foldl gf2_rem_step 0 = b := by
  have key : ∀ b < 256, (byte_bits b).foldl gf2_rem_step 0 = b := by decide
  exact key b h

/-- Feeding the eight coefficients of a byte `b` into the register `r` gives the register
shifted eight times, plus `b`. -/
theorem foldl_byte (r b : Nat) (hr : r < 256) (hb : b < 256) :
    (byte_bits b).foldl gf2_rem_step r = crc8_inner 8 r ^^^ b := by
  have h := foldl_step_xor (byte_bits b) r 0 hr (by norm_num)
  rw [Nat.xor_zero, foldl_byte_bits b hb] at h
  exact h

theorem crc8_outer_eq (data : List Nat) (hdata : ∀ b ∈ data, b < 256) (r : Nat)
    (hr : r < 256) :
    crc8_outer data (crc8_inner 8 r)
      = crc8_inner 8 ((message_bits data).foldl gf2_rem_step r) := by
  induction data generalizing r with
  | nil => rfl
  | cons b rest ih =>
    have hb : b < 256 := hdata b (List.mem_cons_self _ _)
    have hx : crc8_inner 8 r ^^^ b < 256 :=
      Nat.xor_lt_two_pow (n := 8) (crc8_inner_lt 8 r hr) hb
    simp only [crc8_outer, message_bits, List.foldl_append]
    rw [Nat.mod_eq_of_lt hx, ← foldl_byte r b hr hb]
    exact ih (fun x hx => hdata x (List.mem_cons_of_mem _ hx)) _
      (foldl_step_lt _ r hr)

theorem crc8_eq_reference (data : List Nat) (hdata : ∀ b ∈ data, b < 256) :
    crc8 data = crc8_reference data := by
  have h := crc8_outer_eq data hdata 0 (by norm_num)
  have h0 : crc8_inner 8 0 = 0 := by decide
  rw [h0] at h
  unfold crc8 crc8_reference gf2_rem
  rw [h, List.foldl_append, foldl_step_zeros 8 _ (foldl_step_lt _ 0 (by norm_num))]

theorem two_mul_xor (x y : Nat) : 2 * (x ^^^ y) = (2 * x) ^^^ (2 * y) := by
  apply Nat.eq_of_testBit_eq
  intro i
  have h : ∀ z : Nat, (2 * z).testBit i = (decide (i ≥ 1) && z.testBit (i - 1)) := by
    intro z
    have := @Nat.testBit_mul_pow_two 1 z i
    simpa using this
  simp only [Nat.testBit_xor, h]
  cases decide (i ≥ 1) <;> simp

theorem two_mul_add_bit (x : Nat) (b : Bool) : 2 * x + b.toNat = (2 * x) ^^^ b.toNat := by
  apply Nat.eq_of_testBit_eq
  intro i
  have h1 := Nat.testBit_mul_pow_two_add x (i := 1) (b := b.toNat)
    (by cases b <;> decide) i
  have h2 := @Nat.testBit_mul_pow_two 1 x i
  simp only [pow_one] at h1 h2
  rw [h1, Nat.testBit_xor, h2, Nat.testBit_bool_to_nat]
  rcases Nat.lt_or_ge i 1 with hi | hi
  · have : i = 0 := by omega
    subst this
    cases b <;> simp
  · have h0 : ¬ i < 1 := by omega
    have h0' : i ≠ 0 := by omega
    simp [h0, h0', hi]

/-- The division steps keep the division identity: if `p` is a multiple of the divisor
plus the remainder `r`, then after the coefficients `bits` the value is again a multiple
plus the remainder. -/
theorem gf2_division_steps (bits : List Bool) (q : List Bool) (p r : Nat) (hr : r < 256)
    (h : p = gf2_mul q 0x131 ^^^ r) :
    ∃ q', bits.foldl (fun acc b => 2 * acc + b.toNat) p
      = gf2_mul q' 0x131 ^^^ bits.foldl gf2_rem_step r := by
  induction bits generalizing q p r with
  | nil => exact ⟨q, h⟩
  | cons b bs ih =>
    simp only [List.foldl_cons]
    apply ih (q ++ [(2 * r + b.toNat).testBit 8]) _ _ (gf2_rem_step_lt r b hr)
    have hm : gf2_mul (q ++ [(2 * r + b.toNat).testBit 8]) 0x131
        = (2 * gf2_mul q 0x131) ^^^ (if (2 * r + b.toNat).testBit 8 then 0x131 else 0) := by
      simp [gf2_mul, List.foldl_append]
    rw [hm, h, two_mul_add_bit, two_mul_xor, Nat.xor_assoc, ← two_mul_add_bit]
    unfold gf2_rem_step
    by_cases ht : (2 * r + b.toNat).testBit 8 = true
    · simp only [ht, if_true]
      rw [Nat.xor_assoc, ← Nat.xor_assoc 0x131, Nat.xor_comm 0x131 (2 * r + b.toNat),
        Nat.xor_assoc, Nat.xor_self, Nat.xor_zero]
    · simp [ht]

theorem bits_value_append_zeros (bits : List Bool) (n : Nat) :
    bits_value (bits ++ List.replicate n false) = bits_value bits * 2 ^ n := by
  unfold bits_value
  rw [List.foldl_append]
  generalize bits.foldl (fun acc b => 2 * acc + b.toNat) 0 = v
  induction n generalizing v with
  | zero => simp
  | succ n ih =>
    simp only [List.replicate_succ, List.foldl_cons, Bool.toNat_false, Nat.add_zero]
    rw [ih, pow_succ]
    ring

/-- The function `gf2_rem` gives a remainder of the division by x^8 + x^5 + x^4 + 1: its
degree is below 8 and it differs from the dividend by a multiple of the divisor. -/
theorem gf2_rem_spec (bits : List Bool) :
    gf2_rem bits < 256 ∧ ∃ q, bits_value bits = gf2_mul q 0x131 ^^^ gf2_rem bits :=
  ⟨foldl_step_lt bits 0 (by norm_num),
    gf2_division_steps bits [] 0 0 (by norm_num) (by simp [gf2_mul])⟩

theorem nat_xor_left_comm (a b c : Nat) : a ^^^ (b ^^^ c) = b ^^^ (a ^^^ c) := by
  rw [← Nat.xor_assoc, Nat.xor_comm a b, Nat.xor_assoc]

/-- A number with a binary digit at position 9 or above keeps one when a number below 512
is added over GF(2). -/
theorem xor_ge_of_ge (x y : Nat) (hx : 512 ≤ x) (hy : y < 512) : 512 ≤ x ^^^ y := by
  obtain ⟨i, hi, hbit⟩ := Nat.ge_two_pow_implies_high_bit_true (n := 9) (x := x) hx
  have hyi : y.testBit i = false :=
    Nat.testBit_lt_two_pow
      (Nat.lt_of_lt_of_le hy (Nat.pow_le_pow_right (n := 2) (by norm_num) hi))
  have hxy : (x ^^^ y).testBit i = true := by
    rw [Nat.testBit_xor, hbit, hyi]; rfl
  have h1 := Nat.testBit_implies_ge hxy
  have h2 : 2 ^ 9 ≤ 2 ^ i := Nat.pow_le_pow_right (n := 2) (by norm_num) hi
  omega

/-- A product with the divisor is 0 or has degree at least 8. -/
theorem gf2_mul_steps_zero_or_ge (q : List Bool) (acc : Nat) (h : acc = 0 ∨ 256 ≤ acc) :
    q.foldl (fun acc b => (2 * acc) ^^^ (if b then 0x131 else 0)) acc = 0 ∨
      256 ≤ q.foldl (fun acc b => (2 * acc) ^^^ (if b then 0x131 else 0)) acc := by
  induction q generalizing acc with
  | nil => exact h
  | cons b bs ih =>
    simp only [List.foldl_cons]
    apply ih
    rcases h with h | h
    · subst h
      cases b <;> simp
    · right
      have : 512 ≤ 2 * acc ^^^ (if b = true then 0x131 else 0) :=
        xor_ge_of_ge _ _ (by omega) (by cases b <;> simp)
      omega

theorem gf2_mul_zero_or_ge (q : List Bool) :
    gf2_mul q 0x131 = 0 ∨ 256 ≤ gf2_mul q 0x131 :=
  gf2_mul_steps_zero_or_ge q 0 (Or.inl rfl)

/-- The sum over GF(2) of two products with the same polynomial is a product with it. -/
theorem gf2_mul_steps_xor (g : Nat) (q1 q2 : List Bool) (hlen : q1.length = q2.length)
    (a1 a2 : Nat) :
    (List.zipWith xor q1 q2).foldl (fun acc b => (2 * acc) ^^^ (if b then g else 0))
        (a1 ^^^ a2)
      = q1.foldl (fun acc b => (2 * acc) ^^^ (if b then g else 0)) a1 ^^^
        q2.foldl (fun acc b => (2 * acc) ^^^ (if b then g else 0)) a2 := by
  induction q1 generalizing q2 a1 a2 with
  | nil =>
    cases q2 with
    | nil => rfl
    | cons _ _ => simp at hlen
  | cons b1 r1 ih =>
    cases q2 with
    | nil => simp at hlen
    | cons b2 r2 =>
      simp only [List.zipWith_cons_cons, List.foldl_cons]
      rw [← ih r2 (by simpa using hlen)]
      congr 1
      rw [two_mul_xor]
      cases b1 <;> cases b2 <;>
        simp [Nat.xor_assoc, Nat.xor_comm, nat_xor_left_comm, Nat.xor_cancel_left]

theorem gf2_mul_pad (g : Nat) (k : Nat) (q : List Bool) :
    gf2_mul (List.replicate k false ++ q) g = gf2_mul q g := by
  unfold gf2_mul
  rw [List.foldl_append]
  congr 1
  induction k with
  | zero => rfl
  | succ k ih => simpa [List.replicate_succ] using ih

theorem gf2_mul_xor (g : Nat) (q1 q2 : List Bool) :
    ∃ q, gf2_mul q g = gf2_mul q1 g ^^^ gf2_mul q2 g := by
  refine ⟨List.zipWith xor (List.replicate (q2.length - q1.length) false ++ q1)
    (List.replicate (q1.length - q2.length) false ++ q2), ?_⟩
  have h := gf2_mul_steps_xor g (List.replicate (q2.length - q1.length) false ++ q1)
    (List.replicate (q1.length - q2.length) false ++ q2)
    (by simp only [List.length_append, List.length_replicate]; omega) 0 0
  have e1 := gf2_mul_pad g (q2.length - q1.length) q1
  have e2 := gf2_mul_pad g (q1.length - q2.length) q2
  unfold gf2_mul at e1 e2 ⊢
  rw [← e1, ← e2, ← h]
  simp

/-- The remainder of a division by x^8 + x^5 + x^4 + 1 is unique. -/
theorem gf2_rem_unique (q1 q2 : List Bool) (r1 r2 : Nat) (h1 : r1 < 256) (h2 : r2 < 256)
    (h : gf2_mul q1 0x131 ^^^ r1 = gf2_mul q2 0x131 ^^^ r2) : r1 = r2 := by
  obtain ⟨q, hq⟩ := gf2_mul_xor 0x131 q1 q2
  have hm : gf2_mul q 0x131 = r1 ^^^ r2 := by
    rw [hq]
    have : gf2_mul q1 0x131 = gf2_mul q2 0x131 ^^^ r2 ^^^ r1 := by
      rw [← h, Nat.xor_cancel_right]
    rw [this]
    simp [Nat.xor_assoc, Nat.xor_comm, nat_xor_left_comm, Nat.xor_cancel_left]
  have hlt : r1 ^^^ r2 < 256 := Nat.xor_lt_two_pow (n := 8) h1 h2
  rcases gf2_mul_zero_or_ge q with h0 | h0
  · rw [hm] at h0
    exact Nat.xor_eq_zero.1 h0
  · omega

/-! ## The paths of `mgos_htu21df_read` -/

theorem cmd_trace (s : mgos_htu21df) (cmd : Nat) (tr : List Event) :
    (mgos_htu21df_cmd (some s) cmd tr).2 =
      if s.i2c.isSome then tr ++ [Event.i2c_write s.i2caddr [cmd]] else tr := by
  simp only [mgos_htu21df_cmd, mgos_i2c_write]
  cases s.i2c with
  | none => rfl
  | some bus => simp only [Option.isSome_some, if_true]; split <;> rfl

theorem read_cached (regs : Opcodes) (s : mgos_htu21df) (bus : mgos_i2c) (start finish : ℚ)
    (tr : List Event) (hbus : s.i2c = some bus)
    (hc : start - s.stats.last_read_time < MGOS_HTU21DF_READ_DELAY) :
    mgos_htu21df_read regs (some s) start finish tr = ⟨true, some (cache_hit s), tr⟩ := by
  simp [mgos_htu21df_read, hbus, hc, attempted, cache_hit]

theorem read_temp_fail (regs : Opcodes) (s : mgos_htu21df) (bus : mgos_i2c) (start finish : ℚ)
    (tr : List Event) (hbus : s.i2c = some bus)
    (hc : ¬ start - s.stats.last_read_time < MGOS_HTU21DF_READ_DELAY)
    (ht : temp_transfer regs bus s.i2caddr tr = none) :
    mgos_htu21df_read regs (some s) start finish tr =
      ⟨false, some (attempted s),
        tr ++ temp_request regs s.i2caddr ++ [Event.i2c_read s.i2caddr 3]⟩ := by
  obtain ⟨i2c, addr, st, t, h⟩ := s
  subst hbus
  simp [temp_transfer, temp_request, mgos_i2c_read] at ht
  simp at hc
  simp [mgos_htu21df_read, hc, attempted, cmd_trace,
    mgos_usleep, mgos_i2c_read, temp_request, ht]

theorem read_temp_badcrc (regs : Opcodes) (s : mgos_htu21df) (bus : mgos_i2c)
    (start finish : ℚ) (tr : List Event) (td : List Nat) (hbus : s.i2c = some bus)
    (hc : ¬ start - s.stats.last_read_time < MGOS_HTU21DF_READ_DELAY)
    (ht : temp_transfer regs bus s.i2caddr tr = some td) (htc : ¬ crc_ok td) :
    mgos_htu21df_read regs (some s) start finish tr =
      ⟨false, some (attempted s),
        tr ++ temp_request regs s.i2caddr ++ [Event.i2c_read s.i2caddr 3]⟩ := by
  obtain ⟨i2c, addr, st, t, h⟩ := s
  subst hbus
  simp [temp_transfer, temp_request, mgos_i2c_read] at ht
  obtain ⟨tb, htb, rfl⟩ := ht
  simp at hc
  simp [crc_ok] at htc
  simp [mgos_htu21df_read, hc, attempted, cmd_trace,
    mgos_usleep, mgos_i2c_read, temp_request, htb, htc]

theorem read_hum_fail (regs : Opcodes) (s : mgos_htu21df) (bus : mgos_i2c)
    (start finish : ℚ) (tr : List Event) (td : List Nat) (hbus : s.i2c = some bus)
    (hc : ¬ start - s.stats.last_read_time < MGOS_HTU21DF_READ_DELAY)
    (ht : temp_transfer regs bus s.i2caddr tr = some td) (htc : crc_ok td)
    (hh : hum_transfer regs bus s.i2caddr tr = none) :
    mgos_htu21df_read regs (some s) start finish tr =
      ⟨false,
        some { attempted s with temperature := (raw16 td : ℚ) * 175.72 / 65536 - 46.85 },
        tr ++ measure_events regs s.i2caddr⟩ := by
  obtain ⟨i2c, addr, st, t, h⟩ := s
  subst hbus
  simp [temp_transfer, temp_request, mgos_i2c_read] at ht
  obtain ⟨tb, htb, rfl⟩ := ht
  simp [hum_transfer, temp_request, hum_request, mgos_i2c_read] at hh
  simp at hc
  simp [crc_ok] at htc
  simp [mgos_htu21df_read, hc, attempted, cmd_trace, measure_events, hum_request, raw16,
    mgos_usleep, mgos_i2c_read, temp_request, htb, htc, hh]

theorem read_hum_badcrc (regs : Opcodes) (s : mgos_htu21df) (bus : mgos_i2c)
    (start finish : ℚ) (tr : List Event) (td hd : List Nat) (hbus : s.i2c = some bus)
    (hc : ¬ start - s.stats.last_read_time < MGOS_HTU21DF_READ_DELAY)
    (ht : temp_transfer regs bus s.i2caddr tr = some td) (htc : crc_ok td)
    (hh : hum_transfer regs bus s.i2caddr tr = some hd) (hhc : ¬ crc_ok hd) :
    mgos_htu21df_read regs (some s) start finish tr =
      ⟨false,
        some { attempted s with temperature := (raw16 td : ℚ) * 175.72 / 65536 - 46.85 },
        tr ++ measure_events regs s.i2caddr⟩ := by
  obtain ⟨i2c, addr, st, t, h⟩ := s
  subst hbus
  simp [temp_transfer, temp_request, mgos_i2c_read] at ht
  obtain ⟨tb, htb, rfl⟩ := ht
  simp [hum_transfer, temp_request, hum_request, mgos_i2c_read] at hh
  obtain ⟨hb, hhb, rfl⟩ := hh
  simp at hc
  simp [crc_ok] at htc hhc
  simp [mgos_htu21df_read, hc, attempted, cmd_trace, measure_events, hum_request, raw16,
    mgos_usleep, mgos_i2c_read, temp_request, htb, htc, hhb, hhc]

theorem read_ok (regs : Opcodes) (s : mgos_htu21df) (bus : mgos_i2c)
    (start finish : ℚ) (tr : List Event) (td hd : List Nat) (hbus : s.i2c = some bus)
    (hc : ¬ start - s.stats.last_read_time < MGOS_HTU21DF_READ_DELAY)
    (ht : temp_transfer regs bus s.i2caddr tr = some td) (htc : crc_ok td)
    (hh : hum_transfer regs bus s.i2caddr tr = some hd) (hhc : crc_ok hd) :
    mgos_htu21df_read regs (some s) start finish tr =
      ⟨true,
        some { s with
          temperature := (raw16 td : ℚ) * 175.72 / 65536 - 46.85
          humidity := (raw16 hd : ℚ) * 125 / 65536 - 6
          stats :=
            { last_read_time := start
              read := (s.stats.read + 1) % 2 ^ 32
              read_success := (s.stats.read_success + 1) % 2 ^ 32
              read_success_cached := s.stats.read_success_cached
              read_success_usecs := s.stats.read_success_usecs + 1000000 * (finish - start) } },
        tr ++ measure_events regs s.i2caddr⟩ := by
  obtain ⟨i2c, addr, st, t, h⟩ := s
  subst hbus
  simp [temp_transfer, temp_request, mgos_i2c_read] at ht
  obtain ⟨tb, htb, rfl⟩ := ht
  simp [hum_transfer, temp_request, hum_request, mgos_i2c_read] at hh
  obtain ⟨hb, hhb, rfl⟩ := hh
  simp at hc
  simp [crc_ok] at htc hhc
  simp [mgos_htu21df_read, hc, cmd_trace, measure_events, hum_request, raw16,
    mgos_usleep, mgos_i2c_read, temp_request, htb, htc, hhb, hhc]

/-! ## C1 -/

/-- C1, the code at the failing input: the handle that `mgos_htu21df_create` has just
returned, which has never read successfully, is read at clock value 1.  The read takes
the cached path: it returns success, counts a cache hit and no successful read, issues no
bus operation, and leaves temperature and humidity at 0. -/
theorem C1_fresh_handle_read_is_cached :
    (mgos_htu21df_create datasheet_opcodes (some identity_bus) 0x40 true []).1
        = some fresh_handle ∧
      fresh_handle.stats.read_success = 0 ∧
      (mgos_htu21df_read datasheet_opcodes (some fresh_handle) 1 1 []).ret = true ∧
      (mgos_htu21df_read datasheet_opcodes (some fresh_handle) 1 1 []).trace = [] ∧
      (mgos_htu21df_read datasheet_opcodes (some fresh_handle) 1 1 []).sensor.map
          (fun x => (x.stats.read, x.stats.read_success, x.stats.read_success_cached,
            x.temperature, x.humidity))
        = some (1, 0, 1, 0, 0) := by
  have hc : (1 : ℚ) - fresh_handle.stats.last_read_time < MGOS_HTU21DF_READ_DELAY := by
    norm_num [fresh_handle, handle_on, zero_stats, MGOS_HTU21DF_READ_DELAY]
  rw [read_cached datasheet_opcodes fresh_handle identity_bus 1 1 [] rfl hc]
  refine ⟨?_, rfl, rfl, rfl, ?_⟩
  · simp [mgos_htu21df_create, cmd_trace, mgos_usleep, mgos_i2c_read, identity_bus,
      fresh_handle, handle_on]
  · simp [cache_hit, attempted, fresh_handle, handle_on, zero_stats]

/-! ## C2 -/

/-- C2, counterexample: an uncached read whose temperature transfer is accepted (frame
`64 00 D6`) and whose humidity transfer fails on the bus returns failure, but the stored
temperature has changed from 0 to 21.790625. -/
theorem C2_humidity_failure_overwrites_temperature :
    ¬ (10 - (handle_on temp_only_bus).stats.last_read_time < MGOS_HTU21DF_READ_DELAY) ∧
      hum_transfer datasheet_opcodes temp_only_bus 0x40 [] = none ∧
      (mgos_htu21df_read datasheet_opcodes (some (handle_on temp_only_bus)) 10 11 []).ret
        = false ∧
      (handle_on temp_only_bus).temperature = 0 ∧
      (mgos_htu21df_read datasheet_opcodes (some (handle_on temp_only_bus)) 10 11 []).sensor.map
          (fun x => x.temperature)
        = some 21.790625 := by
  have hc : ¬ (10 - (handle_on temp_only_bus).stats.last_read_time
      < MGOS_HTU21DF_READ_DELAY) := by
    norm_num [handle_on, zero_stats, MGOS_HTU21DF_READ_DELAY]
  have ht : temp_transfer datasheet_opcodes temp_only_bus (handle_on temp_only_bus).i2caddr []
      = some [0x64, 0x00, 0xD6] := by
    simp [temp_transfer, temp_request, mgos_i2c_read, temp_only_bus, List.range_succ]
  have htc : crc_ok [0x64, 0x00, 0xD6] := by decide
  have hh : hum_transfer datasheet_opcodes temp_only_bus (handle_on temp_only_bus).i2caddr []
      = none := by
    simp [hum_transfer, temp_request, hum_request, mgos_i2c_read, temp_only_bus]
  have hr := read_hum_fail datasheet_opcodes (handle_on temp_only_bus) temp_only_bus 10 11 []
    _ rfl hc ht htc hh
  refine ⟨hc, hh, ?_, rfl, ?_⟩
  · rw [hr]
  · rw [hr]
    simp [raw16]
    norm_num

/-- C2, amended: an uncached read in which the temperature or the humidity transfer is
not accepted (the bus read fails or the checksum byte differs from `crc8` of the two data
bytes) returns failure; humidity, last-read timestamp, successful-read counter, cache-hit
counter and cumulative duration keep their values and the attempt counter is one higher
(modulo 2^32).  The temperature keeps its value when the temperature transfer is the one
that is not accepted; when the temperature transfer is accepted and the humidity transfer
is not, the temperature is the conversion of the raw value just received. -/
theorem C2_failed_read_frame (regs : Opcodes) (s : mgos_htu21df) (bus : mgos_i2c)
    (start finish : ℚ) (tr : List Event) (hbus : s.i2c = some bus)
    (hc : ¬ start - s.stats.last_read_time < MGOS_HTU21DF_READ_DELAY)
    (hfail : ¬ accepted (temp_transfer regs bus s.i2caddr tr) ∨
      ¬ accepted (hum_transfer regs bus s.i2caddr tr)) :
    ∃ s', (mgos_htu21df_read regs (some s) start finish tr).sensor = some s' ∧
      (mgos_htu21df_read regs (some s) start finish tr).ret = false ∧
      s'.humidity = s.humidity ∧
      s'.stats.last_read_time = s.stats.last_read_time ∧
      s'.stats.read_success = s.stats.read_success ∧
      s'.stats.read_success_cached = s.stats.read_success_cached ∧
      s'.stats.read_success_usecs = s.stats.read_success_usecs ∧
      s'.stats.read = (s.stats.read + 1) % 2 ^ 32 ∧
      (s.stats.read + 1 < 2 ^ 32 → s'.stats.read = s.stats.read + 1) ∧
      (¬ accepted (temp_transfer regs bus s.i2caddr tr) → s'.temperature = s.temperature) ∧
      (∀ td, temp_transfer regs bus s.i2caddr tr = some td → crc_ok td →
        s'.temperature = (raw16 td : ℚ) * 175.72 / 65536 - 46.85) := by
  have hmod : s.stats.read + 1 < 2 ^ 32 → (s.stats.read + 1) % 2 ^ 32 = s.stats.read + 1 :=
    fun h => Nat.mod_eq_of_lt h
  rcases ht : temp_transfer regs bus s.i2caddr tr with _ | td
  · rw [read_temp_fail regs s bus start finish tr hbus hc ht]
    exact ⟨_, rfl, rfl, rfl, rfl, rfl, rfl, rfl, rfl, hmod, fun _ => rfl,
      fun td h => by cases h⟩
  · by_cases htc : crc_ok td
    · have hacc : accepted (temp_transfer regs bus s.i2caddr tr) := by
        rw [ht]; exact htc
      have hh' : ¬ accepted (hum_transfer regs bus s.i2caddr tr) := by
        rcases hfail with h | h
        · exact absurd hacc h
        · exact h
      rcases hh : hum_transfer regs bus s.i2caddr tr with _ | hd
      · rw [read_hum_fail regs s bus start finish tr td hbus hc ht htc hh]
        refine ⟨_, rfl, rfl, rfl, rfl, rfl, rfl, rfl, rfl, hmod, ?_, ?_⟩
        · intro h; exact absurd htc h
        · intro td' h _; cases h; rfl
      · have hhc : ¬ crc_ok hd := by
          rw [hh] at hh'; exact hh'
        rw [read_hum_badcrc regs s bus start finish tr td hd hbus hc ht htc hh hhc]
        refine ⟨_, rfl, rfl, rfl, rfl, rfl, rfl, rfl, rfl, hmod, ?_, ?_⟩
        · intro h; exact absurd htc h
        · intro td' h _; cases h; rfl
    · rw [read_temp_badcrc regs s bus start finish tr td hbus hc ht htc]
      refine ⟨_, rfl, rfl, rfl, rfl, rfl, rfl, rfl, rfl, hmod, fun _ => rfl, ?_⟩
      intro td' h h'; cases h; exact absurd h' htc

/-- C2, the amended property at a concrete input: on `temp_only_bus` the read started at
clock value 10 fails in the humidity transfer. -/
theorem C2_failed_read_frame_witness :
    ¬ (10 - (handle_on temp_only_bus).stats.last_read_time < MGOS_HTU21DF_READ_DELAY) ∧
      ¬ accepted (hum_transfer datasheet_opcodes temp_only_bus 0x40 []) ∧
      ∃ s', (mgos_htu21df_read datasheet_opcodes (some (handle_on temp_only_bus)) 10 11 []).sensor
          = some s' ∧
        (mgos_htu21df_read datasheet_opcodes (some (handle_on temp_only_bus)) 10 11 []).ret
          = false ∧
        s'.humidity = 0 ∧ s'.stats.read_success = 0 ∧ s'.stats.read = 1 := by
  have hc : ¬ (10 - (handle_on temp_only_bus).stats.last_read_time
      < MGOS_HTU21DF_READ_DELAY) := by
    norm_num [handle_on, zero_stats, MGOS_HTU21DF_READ_DELAY]
  have hh : ¬ accepted (hum_transfer datasheet_opcodes temp_only_bus
      (handle_on temp_only_bus).i2caddr []) := by
    simp [hum_transfer, temp_request, hum_request, mgos_i2c_read, temp_only_bus, accepted,
      handle_on]
  obtain ⟨s', h1, h2, h3, _, h5, _, _, h8, _⟩ :=
    C2_failed_read_frame datasheet_opcodes (handle_on temp_only_bus) temp_only_bus 10 11 []
      rfl hc (Or.inr hh)
  exact ⟨hc, hh, s', h1, h2, h3, h5, h8⟩

/-! ## C3 -/

/-- A call inside the cache window leaves the history of events, the number of failed
attempts, the stored values, the timestamp and the successful-read counter as they are. -/
theorem step_cached (regs : Opcodes) (s : mgos_htu21df) (bus : mgos_i2c) (tr : List Event)
    (e : Nat) (c : Call) (hbus : s.i2c = some bus)
    (hc : ∀ t, c.entry_time = some t → t - s.stats.last_read_time < MGOS_HTU21DF_READ_DELAY) :
    ∃ s', step regs ⟨some s, tr, e⟩ c = ⟨some s', tr, e⟩ ∧ s'.i2c = some bus ∧
      s'.temperature = s.temperature ∧ s'.humidity = s.humidity ∧
      s'.stats.last_read_time = s.stats.last_read_time ∧
      s'.stats.read_success = s.stats.read_success ∧
      s'.stats.read_success_usecs = s.stats.read_success_usecs := by
  cases c with
  | read start finish =>
    have h := read_cached regs s bus start finish tr hbus (hc start rfl)
    exact ⟨cache_hit s, by simp [step, h], hbus, rfl, rfl, rfl, rfl, rfl⟩
  | getTemperature start finish =>
    have h := read_cached regs s bus start finish tr hbus (hc start rfl)
    exact ⟨cache_hit s, by simp [step, mgos_htu21df_getTemperature, h], hbus, rfl, rfl, rfl,
      rfl, rfl⟩
  | getHumidity start finish =>
    have h := read_cached regs s bus start finish tr hbus (hc start rfl)
    exact ⟨cache_hit s, by simp [step, mgos_htu21df_getHumidity, h], hbus, rfl, rfl, rfl,
      rfl, rfl⟩
  | getStats dest => exact ⟨s, rfl, hbus, rfl, rfl, rfl, rfl, rfl⟩

/-- A sequence of calls that all fall inside the cache window of the stored timestamp. -/
theorem run_cached (regs : Opcodes) (bus : mgos_i2c) (calls : List Call) (s : mgos_htu21df)
    (tr : List Event) (e : Nat) (hbus : s.i2c = some bus)
    (hc : ∀ c ∈ calls, ∀ t, c.entry_time = some t →
      t - s.stats.last_read_time < MGOS_HTU21DF_READ_DELAY) :
    ∃ s', run regs ⟨some s, tr, e⟩ calls = ⟨some s', tr, e⟩ ∧
      s'.temperature = s.temperature ∧ s'.humidity = s.humidity ∧
      s'.stats.last_read_time = s.stats.last_read_time ∧
      s'.stats.read_success = s.stats.read_success ∧
      s'.stats.read_success_usecs = s.stats.read_success_usecs := by
  induction calls generalizing s with
  | nil => exact ⟨s, rfl, rfl, rfl, rfl, rfl, rfl⟩
  | cons c rest ih =>
    obtain ⟨s1, h1, hb1, ht1, hh1, hl1, hs1, hu1⟩ :=
      step_cached regs s bus tr e c hbus (hc c (List.mem_cons_self _ _))
    obtain ⟨s2, h2, ht2, hh2, hl2, hs2, hu2⟩ := ih s1 hb1 (by
      intro c' hc' t ht
      rw [hl1]
      exact hc c' (List.mem_cons_of_mem _ hc') t ht)
    refine ⟨s2, ?_, ht2.trans ht1, hh2.trans hh1, hl2.trans hl1, hs2.trans hs1,
      hu2.trans hu1⟩
    simp only [run, List.foldl_cons] at h2 ⊢
    rw [h1]
    exact h2

/-- C3: a read that hits the cache (the handle has a transport and the clock value on
entry is less than `MGOS_HTU21DF_READ_DELAY` = 2 seconds after the stored start time of
the last successful read) returns success, issues no bus operation (the history of
events is unchanged), leaves temperature and humidity as stored, increments the attempt
counter and the cache-hit counter by one each (as `uint32_t`, hence exactly one below the
maximum), and leaves the successful-read counter, the last-read timestamp and the
cumulative duration unchanged.  Hence after any sequence of calls that all fall inside
that window no call has failed, no bus operation has been issued and temperature and
humidity are still the stored ones. -/
theorem C3_cached_read_frame (regs : Opcodes) (s : mgos_htu21df) (bus : mgos_i2c)
    (start finish : ℚ) (tr : List Event) (hbus : s.i2c = some bus)
    (hc : start - s.stats.last_read_time < MGOS_HTU21DF_READ_DELAY) :
    (mgos_htu21df_read regs (some s) start finish tr).ret = true ∧
      (mgos_htu21df_read regs (some s) start finish tr).trace = tr ∧
      (∃ s', (mgos_htu21df_read regs (some s) start finish tr).sensor = some s' ∧
        s'.temperature = s.temperature ∧
        s'.humidity = s.humidity ∧
        s'.stats.read = (s.stats.read + 1) % 2 ^ 32 ∧
        s'.stats.read_success_cached = (s.stats.read_success_cached + 1) % 2 ^ 32 ∧
        (s.stats.read + 1 < 2 ^ 32 → s'.stats.read = s.stats.read + 1) ∧
        (s.stats.read_success_cached + 1 < 2 ^ 32 →
          s'.stats.read_success_cached = s.stats.read_success_cached + 1) ∧
        s'.stats.read_success = s.stats.read_success ∧
        s'.stats.last_read_time = s.stats.last_read_time ∧
        s'.stats.read_success_usecs = s.stats.read_success_usecs ∧
        s'.i2c = s.i2c ∧ s'.i2caddr = s.i2caddr) ∧
      ∀ calls : List Call,
        (∀ c ∈ calls, ∀ t, c.entry_time = some t →
          t - s.stats.last_read_time < MGOS_HTU21DF_READ_DELAY) →
        (run regs ⟨some s, tr, 0⟩ calls).trace = tr ∧
        (run regs ⟨some s, tr, 0⟩ calls).errors = 0 ∧
        ∃ s', (run regs ⟨some s, tr, 0⟩ calls).sensor = some s' ∧
          s'.temperature = s.temperature ∧ s'.humidity = s.humidity ∧
          s'.stats.last_read_time = s.stats.last_read_time ∧
          s'.stats.read_success = s.stats.read_success := by
  refine ⟨?_, ?_, ?_, ?_⟩
  · rw [read_cached regs s bus start finish tr hbus hc]
  · rw [read_cached regs s bus start finish tr hbus hc]
  · rw [read_cached regs s bus start finish tr hbus hc]
    exact ⟨_, rfl, rfl, rfl, rfl, rfl, fun h => Nat.mod_eq_of_lt h,
      fun h => Nat.mod_eq_of_lt h, rfl, rfl, rfl, rfl, rfl⟩
  · intro calls hcalls
    obtain ⟨s', h, ht, hh, hl, hs, _⟩ := run_cached regs bus calls s tr 0 hbus hcalls
    rw [h]
    exact ⟨rfl, rfl, s', rfl, ht, hh, hl, hs⟩

/-- C3 at the scenario of the specification: the first read receives
`64 00 crc8(64 00)` and `32 00 crc8(32 00)` at clock value 10, the second read comes at
clock value 11; it issues no bus operation and leaves the values of the first in place. -/
theorem C3_cached_read_frame_witness :
    mgos_htu21df_read datasheet_opcodes (some (handle_on scenario_bus)) 10 10.1 []
        = ⟨true, some scenario_after_first_read, measure_events datasheet_opcodes 0x40⟩ ∧
      (11 - scenario_after_first_read.stats.last_read_time < MGOS_HTU21DF_READ_DELAY) ∧
      (mgos_htu21df_read datasheet_opcodes (some scenario_after_first_read) 11 11
          (measure_events datasheet_opcodes 0x40)).ret = true ∧
      (mgos_htu21df_read datasheet_opcodes (some scenario_after_first_read) 11 11
          (measure_events datasheet_opcodes 0x40)).trace
        = measure_events datasheet_opcodes 0x40 ∧
      ∃ s', (mgos_htu21df_read datasheet_opcodes (some scenario_after_first_read) 11 11
            (measure_events datasheet_opcodes 0x40)).sensor = some s' ∧
        s'.temperature = 21.790625 ∧ s'.humidity = 18.4140625 ∧
        s'.stats.read = 2 ∧ s'.stats.read_success_cached = 1 ∧ s'.stats.read_success = 1 ∧
        s'.stats.last_read_time = 10 := by
  have hc : (11 : ℚ) - scenario_after_first_read.stats.last_read_time
      < MGOS_HTU21DF_READ_DELAY := by
    norm_num [scenario_after_first_read, MGOS_HTU21DF_READ_DELAY]
  have hfirst : mgos_htu21df_read datasheet_opcodes (some (handle_on scenario_bus)) 10 10.1 []
      = ⟨true, some scenario_after_first_read, measure_events datasheet_opcodes 0x40⟩ := by
    have hu : ¬ (10 - (handle_on scenario_bus).stats.last_read_time
        < MGOS_HTU21DF_READ_DELAY) := by
      norm_num [handle_on, zero_stats, MGOS_HTU21DF_READ_DELAY]
    have ht : temp_transfer datasheet_opcodes scenario_bus (handle_on scenario_bus).i2caddr []
        = some [0x64, 0x00, 0xD6] := by
      simp [temp_transfer, temp_request, mgos_i2c_read, scenario_bus, List.range_succ]
      decide
    have hh : hum_transfer datasheet_opcodes scenario_bus (handle_on scenario_bus).i2caddr []
        = some [0x32, 0x00, 0x6B] := by
      simp [hum_transfer, temp_request, hum_request, mgos_i2c_read, scenario_bus,
        List.range_succ]
      decide
    rw [read_ok datasheet_opcodes (handle_on scenario_bus) scenario_bus 10 10.1 [] _ _ rfl hu
      ht (by decide) hh (by decide)]
    simp [handle_on, scenario_after_first_read, zero_stats, raw16]
    norm_num
  obtain ⟨h1, h2, ⟨s', h3, h4, h5, h6, h7, _, _, h10, h11, _⟩, _⟩ :=
    C3_cached_read_frame datasheet_opcodes scenario_after_first_read scenario_bus 11 11
      (measure_events datasheet_opcodes 0x40) rfl hc
  exact ⟨hfirst, hc, h1, h2, s', h3, h4, h5, h6, h7, h10, h11⟩

/-! ## C4 -/

/-- C4: for every sequence of bytes, `crc8` is the reference CRC-8 with polynomial 0x31,
initial value 0, most significant bit first, no reflection and no final XOR: it is below
256 (all values are truncated to 8 bits) and it is the remainder of the message polynomial
multiplied by x^8 modulo x^8 + x^5 + x^4 + 1 over GF(2), that is, the message polynomial
times x^8 is a multiple of the divisor plus `crc8`, and `crc8` is the only value below 256
for which this holds. -/
theorem C4_crc8_is_polynomial_remainder (data : List Nat) (hdata : ∀ b ∈ data, b < 256) :
    crc8 data = crc8_reference data ∧
      crc8 data < 256 ∧
      (∃ q, bits_value (message_bits data) * 2 ^ 8 = gf2_mul q 0x131 ^^^ crc8 data) ∧
      ∀ q r, r < 256 → bits_value (message_bits data) * 2 ^ 8 = gf2_mul q 0x131 ^^^ r →
        r = crc8 data := by
  have h := crc8_eq_reference data hdata
  have hs := gf2_rem_spec (message_bits data ++ List.replicate 8 false)
  rw [bits_value_append_zeros] at hs
  rw [h]
  refine ⟨rfl, hs.1, hs.2, ?_⟩
  intro q r hr hq
  obtain ⟨q', hq'⟩ := hs.2
  exact gf2_rem_unique q q' r _ hr hs.1 (hq ▸ hq')

/-- C4 at the input of the specification: `crc8([0xDC]) = 0x79`. -/
theorem C4_crc8_is_polynomial_remainder_witness :
    (∀ b ∈ [0xDC], b < 256) ∧ crc8 [0xDC] = 0x79 ∧ crc8_reference [0xDC] = 0x79 := by
  have hb : ∀ b ∈ [0xDC], b < 256 := by decide
  have h := (C4_crc8_is_polynomial_remainder [0xDC] hb).1
  have hc : crc8 [0xDC] = 0x79 := by decide
  exact ⟨hb, hc, h ▸ hc⟩

/-! ## C5 -/

/-- What one call of `mgos_htu21df_read` on a handle with a transport does to the
counters: the attempt counter goes up, and either the read fails and the two success
counters stay, or it succeeds and exactly one of them goes up. -/
theorem read_counters (regs : Opcodes) (s : mgos_htu21df) (bus : mgos_i2c)
    (start finish : ℚ) (tr : List Event) (hbus : s.i2c = some bus) :
    ∃ s', (mgos_htu21df_read regs (some s) start finish tr).sensor = some s' ∧
      s'.i2c = some bus ∧
      s'.stats.read = (s.stats.read + 1) % 2 ^ 32 ∧
      (((mgos_htu21df_read regs (some s) start finish tr).ret = false ∧
          s'.stats.read_success = s.stats.read_success ∧
          s'.stats.read_success_cached = s.stats.read_success_cached) ∨
        ((mgos_htu21df_read regs (some s) start finish tr).ret = true ∧
          s'.stats.read_success = (s.stats.read_success + 1) % 2 ^ 32 ∧
          s'.stats.read_success_cached = s.stats.read_success_cached) ∨
        ((mgos_htu21df_read regs (some s) start finish tr).ret = true ∧
          s'.stats.read_success = s.stats.read_success ∧
          s'.stats.read_success_cached = (s.stats.read_success_cached + 1) % 2 ^ 32)) := by
  by_cases hc : start - s.stats.last_read_time < MGOS_HTU21DF_READ_DELAY
  · rw [read_cached regs s bus start finish tr hbus hc]
    exact ⟨_, rfl, hbus, rfl, Or.inr (Or.inr ⟨rfl, rfl, rfl⟩)⟩
  · rcases ht : temp_transfer regs bus s.i2caddr tr with _ | td
    · rw [read_temp_fail regs s bus start finish tr hbus hc ht]
      exact ⟨_, rfl, hbus, rfl, Or.inl ⟨rfl, rfl, rfl⟩⟩
    · by_cases htc : crc_ok td
      · rcases hh : hum_transfer regs bus s.i2caddr tr with _ | hd
        · rw [read_hum_fail regs s bus start finish tr td hbus hc ht htc hh]
          exact ⟨_, rfl, hbus, rfl, Or.inl ⟨rfl, rfl, rfl⟩⟩
        · by_cases hhc : crc_ok hd
          · rw [read_ok regs s bus start finish tr td hd hbus hc ht htc hh hhc]
            exact ⟨_, rfl, hbus, rfl, Or.inr (Or.inl ⟨rfl, rfl, rfl⟩)⟩
          · rw [read_hum_badcrc regs s bus start finish tr td hd hbus hc ht htc hh hhc]
            exact ⟨_, rfl, hbus, rfl, Or.inl ⟨rfl, rfl, rfl⟩⟩
      · rw [read_temp_badcrc regs s bus start finish tr td hbus hc ht htc]
        exact ⟨_, rfl, hbus, rfl, Or.inl ⟨rfl, rfl, rfl⟩⟩

/-- Every call that makes a read attempt acts on the run as `mgos_htu21df_read` does, and
counts a failure exactly when that read returns `false`. -/
theorem step_attempt_eq (regs : Opcodes) (st : RunState) (c : Call) (s : mgos_htu21df)
    (bus : mgos_i2c) (hs : st.sensor = some s) (hbus : s.i2c = some bus)
    (hc : c.is_attempt = true) :
    ∃ start finish,
      step regs st c =
        ⟨(mgos_htu21df_read regs (some s) start finish st.trace).sensor,
          (mgos_htu21df_read regs (some s) start finish st.trace).trace,
          if (mgos_htu21df_read regs (some s) start finish st.trace).ret then st.errors
          else st.errors + 1⟩ := by
  cases c with
  | read start finish => exact ⟨start, finish, by simp [step, hs]⟩
  | getTemperature start finish =>
    refine ⟨start, finish, ?_⟩
    obtain ⟨s', h1, _⟩ := read_counters regs s bus start finish st.trace hbus
    cases hr : (mgos_htu21df_read regs (some s) start finish st.trace).ret <;>
      simp [step, mgos_htu21df_getTemperature, hs, hr, h1]
  | getHumidity start finish =>
    refine ⟨start, finish, ?_⟩
    obtain ⟨s', h1, _⟩ := read_counters regs s bus start finish st.trace hbus
    cases hr : (mgos_htu21df_read regs (some s) start finish st.trace).ret <;>
      simp [step, mgos_htu21df_getHumidity, hs, hr, h1]
  | getStats dest => simp [Call.is_attempt] at hc

/-- One read attempt in a run that has not used up the range of the counters: the attempt
counter goes up by one, and either the failed attempts or exactly one success counter
goes up by one. -/
theorem step_attempt (regs : Opcodes) (bus : mgos_i2c) (st : RunState) (n : Nat) (c : Call)
    (hinv : RunInv bus st n) (hn : n + 1 < 2 ^ 32) (hc : c.is_attempt = true) :
    ∃ a b, st.sensor = some a ∧ (step regs st c).sensor = some b ∧ b.i2c = some bus ∧
      b.stats.read = a.stats.read + 1 ∧
      ((b.stats.read_success = a.stats.read_success ∧
          b.stats.read_success_cached = a.stats.read_success_cached ∧
          (step regs st c).errors = st.errors + 1) ∨
        (b.stats.read_success = a.stats.read_success + 1 ∧
          b.stats.read_success_cached = a.stats.read_success_cached ∧
          (step regs st c).errors = st.errors) ∨
        (b.stats.read_success = a.stats.read_success ∧
          b.stats.read_success_cached = a.stats.read_success_cached + 1 ∧
          (step regs st c).errors = st.errors)) := by
  obtain ⟨s, hs, hbus, hread, hsum⟩ := hinv
  obtain ⟨start, finish, heq⟩ := step_attempt_eq regs st c s bus hs hbus hc
  obtain ⟨s', h1, h2, h3, h4⟩ := read_counters regs s bus start finish st.trace hbus
  have e1 : (s.stats.read + 1) % 2 ^ 32 = s.stats.read + 1 :=
    Nat.mod_eq_of_lt (by omega)
  have e2 : (s.stats.read_success + 1) % 2 ^ 32 = s.stats.read_success + 1 :=
    Nat.mod_eq_of_lt (by omega)
  have e3 : (s.stats.read_success_cached + 1) % 2 ^ 32 = s.stats.read_success_cached + 1 :=
    Nat.mod_eq_of_lt (by omega)
  refine ⟨s, s', hs, by rw [heq]; exact h1, h2, by rw [h3, e1], ?_⟩
  rw [heq]
  rcases h4 with ⟨hr, h5, h6⟩ | ⟨hr, h5, h6⟩ | ⟨hr, h5, h6⟩
  · exact Or.inl ⟨h5, h6, by simp [hr]⟩
  · exact Or.inr (Or.inl ⟨by rw [h5, e2], h6, by simp [hr]⟩)
  · exact Or.inr (Or.inr ⟨h5, by rw [h6, e3], by simp [hr]⟩)

theorem step_inv (regs : Opcodes) (bus : mgos_i2c) (st : RunState) (n : Nat) (c : Call)
    (hinv : RunInv bus st n)
    (hn : n + (if c.is_attempt then 1 else 0) < 2 ^ 32) :
    RunInv bus (step regs st c) (n + (if c.is_attempt then 1 else 0)) := by
  by_cases hc : c.is_attempt = true
  · simp only [hc, if_true] at hn ⊢
    obtain ⟨a, b, ha, hb, hbus, hread, hcases⟩ := step_attempt regs bus st n c hinv hn hc
    obtain ⟨s, hs, _, hsn, hsum⟩ := hinv
    rw [ha] at hs
    cases hs
    refine ⟨b, hb, hbus, by omega, ?_⟩
    rcases hcases with ⟨h1, h2, h3⟩ | ⟨h1, h2, h3⟩ | ⟨h1, h2, h3⟩ <;> omega
  · cases c with
    | getStats dest => simpa [step, Call.is_attempt] using hinv
    | read start finish => simp [Call.is_attempt] at hc
    | getTemperature start finish => simp [Call.is_attempt] at hc
    | getHumidity start finish => simp [Call.is_attempt] at hc

theorem attempts_cons (c : Call) (calls : List Call) :
    attempts (c :: calls) = (if c.is_attempt then 1 else 0) + attempts calls := by
  unfold attempts
  by_cases hc : c.is_attempt = true
  · simp [List.filter_cons, hc]; omega
  · simp [List.filter_cons, hc]

theorem run_inv (regs : Opcodes) (bus : mgos_i2c) (calls : List Call) (st : RunState)
    (n : Nat) (hinv : RunInv bus st n) (hn : n + attempts calls < 2 ^ 32) :
    RunInv bus (run regs st calls) (n + attempts calls) := by
  induction calls generalizing st n with
  | nil => simpa [run, attempts] using hinv
  | cons c rest ih =>
    rw [attempts_cons] at hn ⊢
    have h1 := step_inv regs bus st n c hinv (by omega)
    have h2 := ih (step regs st c) _ h1 (by omega)
    rw [Nat.add_assoc] at h2
    exact h2

theorem attempts_append (pre post : List Call) :
    attempts (pre ++ post) = attempts pre + attempts post := by
  simp [attempts, List.filter_append]

/-- C5: after any finite sequence of `read`, `getTemperature`, `getHumidity` and
`getStats` calls on a handle with a transport whose counters start at zero, with fewer
than 2^32 read attempts, the statistics satisfy
`read = read_success + read_success_cached + errors`, where `errors` is the number of
read attempts that returned failure; `read_success + read_success_cached <= read`; `read`
is the number of attempts made; and each attempt of the sequence raises `read` by exactly
one and either counts as a failure or raises exactly one of the two success counters by
exactly one. -/
theorem C5_stats_invariant (regs : Opcodes) (s0 : mgos_htu21df) (bus : mgos_i2c)
    (tr : List Event) (calls : List Call) (hbus : s0.i2c = some bus)
    (hzero : counters s0 = (0, 0, 0)) (hlen : attempts calls < 2 ^ 32) :
    (∃ s, (run regs ⟨some s0, tr, 0⟩ calls).sensor = some s ∧
        s.stats.read
          = s.stats.read_success + s.stats.read_success_cached
            + (run regs ⟨some s0, tr, 0⟩ calls).errors ∧
        s.stats.read_success + s.stats.read_success_cached ≤ s.stats.read ∧
        s.stats.read = attempts calls) ∧
      ∀ pre c post, calls = pre ++ c :: post → c.is_attempt = true →
        ∃ a b, (run regs ⟨some s0, tr, 0⟩ pre).sensor = some a ∧
          (run regs ⟨some s0, tr, 0⟩ (pre ++ [c])).sensor = some b ∧
          b.stats.read = a.stats.read + 1 ∧
          ((b.stats.read_success = a.stats.read_success ∧
              b.stats.read_success_cached = a.stats.read_success_cached ∧
              (run regs ⟨some s0, tr, 0⟩ (pre ++ [c])).errors
                = (run regs ⟨some s0, tr, 0⟩ pre).errors + 1) ∨
            (b.stats.read_success = a.stats.read_success + 1 ∧
              b.stats.read_success_cached = a.stats.read_success_cached ∧
              (run regs ⟨some s0, tr, 0⟩ (pre ++ [c])).errors
                = (run regs ⟨some s0, tr, 0⟩ pre).errors) ∨
            (b.stats.read_success = a.stats.read_success ∧
              b.stats.read_success_cached = a.stats.read_success_cached + 1 ∧
              (run regs ⟨some s0, tr, 0⟩ (pre ++ [c])).errors
                = (run regs ⟨some s0, tr, 0⟩ pre).errors)) := by
  simp only [counters, Prod.mk.injEq] at hzero
  obtain ⟨z1, z2, z3⟩ := hzero
  have hinv0 : RunInv bus ⟨some s0, tr, 0⟩ 0 :=
    ⟨s0, rfl, hbus, z1, by simp [z1, z2, z3]⟩
  constructor
  · obtain ⟨s, hs, _, hn, hsum⟩ := run_inv regs bus calls _ 0 hinv0 (by omega)
    exact ⟨s, hs, hsum, by omega, by omega⟩
  · intro pre c post hsplit hc
    have hatt : attempts calls = attempts pre + (1 + attempts post) := by
      rw [hsplit, attempts_append, attempts_cons]
      simp [hc]
    have hpre := run_inv regs bus pre _ 0 hinv0 (by omega)
    obtain ⟨a, b, ha, hb, _, hread, hcases⟩ :=
      step_attempt regs bus (run regs ⟨some s0, tr, 0⟩ pre) _ c hpre (by omega) hc
    have hrun : run regs ⟨some s0, tr, 0⟩ (pre ++ [c])
        = step regs (run regs ⟨some s0, tr, 0⟩ pre) c := by
      simp [run, List.foldl_append]
    rw [hrun]
    exact ⟨a, b, ha, hb, hread, hcases⟩

/-- C5 on a concrete run: a measurement, a getter call inside the cache window, a
`getStats` call and a read on `scenario_bus`. -/
theorem C5_stats_invariant_witness :
    counters (handle_on scenario_bus) = (0, 0, 0) ∧
      attempts [Call.read 10 10.1, Call.getTemperature 11 11, Call.getStats none,
        Call.read 20 20.1] < 2 ^ 32 ∧
      ∃ s, (run datasheet_opcodes ⟨some (handle_on scenario_bus), [], 0⟩
            [Call.read 10 10.1, Call.getTemperature 11 11, Call.getStats none,
              Call.read 20 20.1]).sensor = some s ∧
        s.stats.read
          = s.stats.read_success + s.stats.read_success_cached
            + (run datasheet_opcodes ⟨some (handle_on scenario_bus), [], 0⟩
                [Call.read 10 10.1, Call.getTemperature 11 11, Call.getStats none,
                  Call.read 20 20.1]).errors ∧
        s.stats.read = 3 := by
  have hlen : attempts [Call.read 10 10.1, Call.getTemperature 11 11, Call.getStats none,
      Call.read 20 20.1] < 2 ^ 32 := by
    simp [attempts, Call.is_attempt]
  obtain ⟨⟨s, h1, h2, _, h4⟩, _⟩ :=
    C5_stats_invariant datasheet_opcodes (handle_on scenario_bus) scenario_bus []
      [Call.read 10 10.1, Call.getTemperature 11 11, Call.getStats none, Call.read 20 20.1]
      rfl rfl hlen
  refine ⟨rfl, hlen, s, h1, h2, ?_⟩
  rw [h4]
  simp [attempts, Call.is_attempt]

/-! ## C6 -/

/-- The bytes of a buffer delivered by `mgos_i2c_read` are below 256. -/
theorem transfer_bytes_lt (bus : mgos_i2c) (addr : Nat) (tr : List Event) (b0 b1 c : Nat)
    (h : (mgos_i2c_read bus addr 3 tr).1 = some [b0, b1, c]) :
    b0 < 256 ∧ b1 < 256 ∧ c < 256 := by
  simp only [mgos_i2c_read, Option.map_eq_some'] at h
  obtain ⟨bytes, _, hb⟩ := h
  simp [List.range_succ] at hb
  obtain ⟨h0, h1, h2⟩ := hb
  omega

/-- An uncached read whose temperature transfer is accepted stores the conversion of the
raw temperature, whatever happens to the humidity transfer, and performs the whole
sequence of bus operations; it returns success exactly when the humidity transfer is
accepted too. -/
theorem read_temp_accepted (regs : Opcodes) (s : mgos_htu21df) (bus : mgos_i2c)
    (start finish : ℚ) (tr : List Event) (td : List Nat) (hbus : s.i2c = some bus)
    (hc : ¬ start - s.stats.last_read_time < MGOS_HTU21DF_READ_DELAY)
    (ht : temp_transfer regs bus s.i2caddr tr = some td) (htc : crc_ok td) :
    (mgos_htu21df_read regs (some s) start finish tr).trace
        = tr ++ measure_events regs s.i2caddr ∧
      ((mgos_htu21df_read regs (some s) start finish tr).ret = true ↔
        accepted (hum_transfer regs bus s.i2caddr tr)) ∧
      ∃ s', (mgos_htu21df_read regs (some s) start finish tr).sensor = some s' ∧
        s'.temperature = (raw16 td : ℚ) * 175.72 / 65536 - 46.85 := by
  rcases hh : hum_transfer regs bus s.i2caddr tr with _ | hd
  · rw [read_hum_fail regs s bus start finish tr td hbus hc ht htc hh]
    exact ⟨rfl, by simp [accepted], _, rfl, rfl⟩
  · by_cases hhc : crc_ok hd
    · rw [read_ok regs s bus start finish tr td hd hbus hc ht htc hh hhc]
      exact ⟨rfl, by simp [accepted, hhc], _, rfl, rfl⟩
    · rw [read_hum_badcrc regs s bus start finish tr td hd hbus hc ht htc hh hhc]
      exact ⟨rfl, by simp [accepted, hhc], _, rfl, rfl⟩

/-- C6, counterexample: on `write_fail_bus` the write of the measure-temperature command
fails, yet the uncached read returns success, writes the humidity command, reads the
humidity bytes and stores a new temperature and a new humidity. -/
theorem C6_command_failure_is_ignored :
    ¬ (10 - (handle_on write_fail_bus).stats.last_read_time < MGOS_HTU21DF_READ_DELAY) ∧
      (mgos_htu21df_cmd (some (attempted (handle_on write_fail_bus)))
          datasheet_opcodes.MGOS_HTU21DF_READTEMP []).1 = false ∧
      (mgos_htu21df_read datasheet_opcodes (some (handle_on write_fail_bus)) 10 10.1 []).ret
        = true ∧
      (mgos_htu21df_read datasheet_opcodes (some (handle_on write_fail_bus)) 10 10.1 []).trace
        = [Event.i2c_write 0x40 [0xE3], Event.usleep 50000, Event.i2c_read 0x40 3,
            Event.i2c_write 0x40 [0xE5], Event.usleep 50000, Event.i2c_read 0x40 3] ∧
      (handle_on write_fail_bus).temperature = 0 ∧
      (mgos_htu21df_read datasheet_opcodes (some (handle_on write_fail_bus)) 10 10.1
          []).sensor.map (fun x => (x.temperature, x.humidity, x.stats.read_success))
        = some (21.790625, 18.4140625, 1) := by
  have hu : ¬ (10 - (handle_on write_fail_bus).stats.last_read_time
      < MGOS_HTU21DF_READ_DELAY) := by
    norm_num [handle_on, zero_stats, MGOS_HTU21DF_READ_DELAY]
  have ht : temp_transfer datasheet_opcodes write_fail_bus (handle_on write_fail_bus).i2caddr
      [] = some [0x64, 0x00, 0xD6] := by
    simp [temp_transfer, temp_request, mgos_i2c_read, write_fail_bus, scenario_bus,
      List.range_succ]
    decide
  have hh : hum_transfer datasheet_opcodes write_fail_bus (handle_on write_fail_bus).i2caddr
      [] = some [0x32, 0x00, 0x6B] := by
    simp [hum_transfer, temp_request, hum_request, mgos_i2c_read, write_fail_bus,
      scenario_bus, List.range_succ]
    decide
  rw [read_ok datasheet_opcodes (handle_on write_fail_bus) write_fail_bus 10 10.1 [] _ _ rfl hu
    ht (by decide) hh (by decide)]
  refine ⟨hu, ?_, rfl, rfl, rfl, ?_⟩
  · simp [mgos_htu21df_cmd, attempted, handle_on, mgos_i2c_write, write_fail_bus]
  · simp [handle_on, zero_stats, raw16]
    norm_num

/-- C6, amended: in an uncached read in which the transport reports failure on the write
of the measure-temperature command, `mgos_htu21df_cmd` returns `false` but the read goes
on to the 3-byte temperature transfer.  If that transfer is not accepted, the read returns
failure, no humidity command is written and no humidity bytes are read, and temperature,
humidity, timestamp and success counters are unchanged.  If it is accepted, the new
temperature is stored, the humidity command is written and the humidity bytes are read,
and the read returns success exactly when the humidity transfer is accepted too. -/
theorem C6_temp_command_failure (regs : Opcodes) (s : mgos_htu21df) (bus : mgos_i2c)
    (start finish : ℚ) (tr : List Event) (hbus : s.i2c = some bus)
    (hc : ¬ start - s.stats.last_read_time < MGOS_HTU21DF_READ_DELAY)
    (hw : bus.write tr s.i2caddr [regs.MGOS_HTU21DF_READTEMP] = false) :
    (mgos_htu21df_cmd (some (attempted s)) regs.MGOS_HTU21DF_READTEMP tr).1 = false ∧
      (¬ accepted (temp_transfer regs bus s.i2caddr tr) →
        (mgos_htu21df_read regs (some s) start finish tr).ret = false ∧
        (mgos_htu21df_read regs (some s) start finish tr).trace
          = tr ++ temp_request regs s.i2caddr ++ [Event.i2c_read s.i2caddr 3] ∧
        ∃ s', (mgos_htu21df_read regs (some s) start finish tr).sensor = some s' ∧
          s'.temperature = s.temperature ∧ s'.humidity = s.humidity ∧
          s'.stats.last_read_time = s.stats.last_read_time ∧
          s'.stats.read_success = s.stats.read_success ∧
          s'.stats.read_success_cached = s.stats.read_success_cached) ∧
      (∀ td, temp_transfer regs bus s.i2caddr tr = some td → crc_ok td →
        (mgos_htu21df_read regs (some s) start finish tr).trace
          = tr ++ temp_request regs s.i2caddr ++ [Event.i2c_read s.i2caddr 3]
            ++ hum_request regs s.i2caddr ++ [Event.i2c_read s.i2caddr 3] ∧
        ((mgos_htu21df_read regs (some s) start finish tr).ret = true ↔
          accepted (hum_transfer regs bus s.i2caddr tr)) ∧
        ∃ s', (mgos_htu21df_read regs (some s) start finish tr).sensor = some s' ∧
          s'.temperature = (raw16 td : ℚ) * 175.72 / 65536 - 46.85) := by
  refine ⟨?_, ?_, ?_⟩
  · simp [mgos_htu21df_cmd, mgos_i2c_write, attempted, hbus, hw]
  · intro hna
    rcases ht : temp_transfer regs bus s.i2caddr tr with _ | td
    · rw [read_temp_fail regs s bus start finish tr hbus hc ht]
      exact ⟨rfl, rfl, _, rfl, rfl, rfl, rfl, rfl, rfl⟩
    · have htc : ¬ crc_ok td := by
        rw [ht] at hna; exact hna
      rw [read_temp_badcrc regs s bus start finish tr td hbus hc ht htc]
      exact ⟨rfl, rfl, _, rfl, rfl, rfl, rfl, rfl, rfl⟩
  · intro td ht htc
    have h := read_temp_accepted regs s bus start finish tr td hbus hc ht htc
    simp only [measure_events, ← List.append_assoc] at h
    exact h

/-- C6 at a concrete input: a read on `write_fail_bus`, where the temperature transfer is
accepted after the failed write of the command. -/
theorem C6_temp_command_failure_witness :
    ¬ (10 - (handle_on write_fail_bus).stats.last_read_time < MGOS_HTU21DF_READ_DELAY) ∧
      write_fail_bus.write [] 0x40 [0xE3] = false ∧
      (mgos_htu21df_cmd (some (attempted (handle_on write_fail_bus))) 0xE3 []).1 = false ∧
      temp_transfer datasheet_opcodes write_fail_bus 0x40 [] = some [0x64, 0x00, 0xD6] ∧
      crc_ok [0x64, 0x00, 0xD6] ∧
      (mgos_htu21df_read datasheet_opcodes (some (handle_on write_fail_bus)) 10 10.1 []).trace
        = [Event.i2c_write 0x40 [0xE3], Event.usleep 50000, Event.i2c_read 0x40 3,
            Event.i2c_write 0x40 [0xE5], Event.usleep 50000, Event.i2c_read 0x40 3] := by
  have hu : ¬ (10 - (handle_on write_fail_bus).stats.last_read_time
      < MGOS_HTU21DF_READ_DELAY) := by
    norm_num [handle_on, zero_stats, MGOS_HTU21DF_READ_DELAY]
  have ht : temp_transfer datasheet_opcodes write_fail_bus (handle_on write_fail_bus).i2caddr
      [] = some [0x64, 0x00, 0xD6] := by
    simp [temp_transfer, temp_request, mgos_i2c_read, write_fail_bus, scenario_bus,
      List.range_succ]
    decide
  have htc : crc_ok [0x64, 0x00, 0xD6] := by decide
  obtain ⟨h1, _, h3⟩ :=
    C6_temp_command_failure datasheet_opcodes (handle_on write_fail_bus) write_fail_bus
      10 10.1 [] rfl hu rfl
  exact ⟨hu, rfl, h1, ht, htc, (h3 _ ht htc).1⟩

/-! ## C7 -/

theorem raw16_eq (b0 b1 c : Nat) (h0 : b0 < 256) (h1 : b1 < 256) :
    raw16 [b0, b1, c] = 256 * b0 + b1 := by
  simp only [raw16, List.getD_cons_zero, List.getD_cons_succ, Nat.shiftLeft_eq]
  omega

theorem crc_ok_iff (b0 b1 c : Nat) : crc_ok [b0, b1, c] ↔ c = crc8 [b0, b1] := by
  simp [crc_ok]

/-- C7: for every temperature payload with data bytes `b0`, `b1` that an uncached read
accepts (the transfer delivers `b0 b1 c` with `c = crc8 [b0, b1]`), the stored temperature
is `raw * 175.72 / 65536 - 46.85` in exact rational arithmetic, where
`raw = 256 * b0 + b1` is the big-endian 16-bit value, not masked and not truncated by the
`uint16_t` assignment; raw 0x0000 gives exactly -46.85 and raw 0xFFFF gives a value that
rounds to 128.87 at two decimals (it lies in [128.865, 128.875)). -/
theorem C7_temperature_conversion (regs : Opcodes) (s : mgos_htu21df) (bus : mgos_i2c)
    (start finish : ℚ) (tr : List Event) (b0 b1 c : Nat) (hbus : s.i2c = some bus)
    (hc : ¬ start - s.stats.last_read_time < MGOS_HTU21DF_READ_DELAY)
    (ht : temp_transfer regs bus s.i2caddr tr = some [b0, b1, c])
    (hcrc : c = crc8 [b0, b1]) :
    b0 < 256 ∧ b1 < 256 ∧
      raw16 [b0, b1, c] = 256 * b0 + b1 ∧
      ∃ s', (mgos_htu21df_read regs (some s) start finish tr).sensor = some s' ∧
        s'.temperature = ((256 * b0 + b1 : ℕ) : ℚ) * 175.72 / 65536 - 46.85 ∧
        (b0 = 0x00 ∧ b1 = 0x00 → s'.temperature = -46.85) ∧
        (b0 = 0xFF ∧ b1 = 0xFF → 128.865 ≤ s'.temperature ∧ s'.temperature < 128.875) := by
  obtain ⟨h0, h1, _⟩ := transfer_bytes_lt bus s.i2caddr _ b0 b1 c ht
  have hraw := raw16_eq b0 b1 c h0 h1
  obtain ⟨_, _, s', hs', htemp⟩ :=
    read_temp_accepted regs s bus start finish tr _ hbus hc ht ((crc_ok_iff b0 b1 c).2 hcrc)
  rw [hraw] at htemp
  refine ⟨h0, h1, hraw, s', hs', htemp, ?_, ?_⟩
  · rintro ⟨rfl, rfl⟩
    rw [htemp]; norm_num
  · rintro ⟨rfl, rfl⟩
    rw [htemp]; norm_num

/-- C7 at the largest raw value: the temperature frame `FF FF crc8(FF FF)`. -/
theorem C7_temperature_conversion_witness :
    ¬ (10 - (handle_on full_scale_bus).stats.last_read_time < MGOS_HTU21DF_READ_DELAY) ∧
      temp_transfer datasheet_opcodes full_scale_bus 0x40 []
        = some [0xFF, 0xFF, crc8 [0xFF, 0xFF]] ∧
      ∃ s', (mgos_htu21df_read datasheet_opcodes (some (handle_on full_scale_bus)) 10 10.1
            []).sensor = some s' ∧
        s'.temperature = ((256 * 0xFF + 0xFF : ℕ) : ℚ) * 175.72 / 65536 - 46.85 ∧
        128.865 ≤ s'.temperature ∧ s'.temperature < 128.875 := by
  have hu : ¬ (10 - (handle_on full_scale_bus).stats.last_read_time
      < MGOS_HTU21DF_READ_DELAY) := by
    norm_num [handle_on, zero_stats, MGOS_HTU21DF_READ_DELAY]
  have ht : temp_transfer datasheet_opcodes full_scale_bus (handle_on full_scale_bus).i2caddr
      [] = some [0xFF, 0xFF, crc8 [0xFF, 0xFF]] := by
    simp [temp_transfer, temp_request, mgos_i2c_read, full_scale_bus, List.range_succ]
    decide
  obtain ⟨_, _, _, s', h1, h2, _, h4⟩ :=
    C7_temperature_conversion datasheet_opcodes (handle_on full_scale_bus) full_scale_bus
      10 10.1 [] 0xFF 0xFF (crc8 [0xFF, 0xFF]) rfl hu ht rfl
  exact ⟨hu, ht, s', h1, h2, h4 ⟨rfl, rfl⟩⟩

/-! ## C8 -/

/-- C8, counterexample: the read on `full_scale_bus` accepts the humidity frame
`FF FF crc8(FF FF)` (raw 0xFFFF) and stores the humidity 7798659/65536 = 118.998...,
which does not lie in [119.0989, 119.0990). -/
theorem C8_full_scale_humidity_is_not_119_0989 :
    hum_transfer datasheet_opcodes full_scale_bus 0x40 []
        = some [0xFF, 0xFF, crc8 [0xFF, 0xFF]] ∧
      (mgos_htu21df_read datasheet_opcodes (some (handle_on full_scale_bus)) 10 10.1 []).ret
        = true ∧
      (mgos_htu21df_read datasheet_opcodes (some (handle_on full_scale_bus)) 10 10.1
          []).sensor.map (fun x => x.humidity) = some (7798659 / 65536) ∧
      ¬ ((119.0989 : ℚ) ≤ 7798659 / 65536 ∧ (7798659 / 65536 : ℚ) < 119.0990) := by
  have hu : ¬ (10 - (handle_on full_scale_bus).stats.last_read_time
      < MGOS_HTU21DF_READ_DELAY) := by
    norm_num [handle_on, zero_stats, MGOS_HTU21DF_READ_DELAY]
  have ht : temp_transfer datasheet_opcodes full_scale_bus (handle_on full_scale_bus).i2caddr
      [] = some [0xFF, 0xFF, crc8 [0xFF, 0xFF]] := by
    simp [temp_transfer, temp_request, mgos_i2c_read, full_scale_bus, List.range_succ]
    decide
  have hh : hum_transfer datasheet_opcodes full_scale_bus (handle_on full_scale_bus).i2caddr
      [] = some [0xFF, 0xFF, crc8 [0xFF, 0xFF]] := by
    simp [hum_transfer, temp_request, hum_request, mgos_i2c_read, full_scale_bus,
      List.range_succ]
    decide
  rw [read_ok datasheet_opcodes (handle_on full_scale_bus) full_scale_bus 10 10.1 [] _ _ rfl hu
    ht (by decide) hh (by decide)]
  refine ⟨?_, rfl, ?_, ?_⟩
  · exact hh
  · simp [raw16]
    norm_num
  · norm_num

/-- C8, amended: for every humidity payload with data bytes `b0`, `b1` that an uncached
read accepts (after an accepted temperature transfer, the humidity transfer delivers
`b0 b1 c` with `c = crc8 [b0, b1]`), the read returns success and the stored humidity is
`raw * 125 / 65536 - 6` in exact rational arithmetic, where `raw = 256 * b0 + b1`, with no
clamping to [0, 100] and no rejection of out-of-range raw values; raw 0x0000 gives
exactly -6 and raw 0xFFFF gives 7798659/65536, approximately 118.9981 (a value in
[118.9980, 118.9981)). -/
theorem C8_humidity_conversion (regs : Opcodes) (s : mgos_htu21df) (bus : mgos_i2c)
    (start finish : ℚ) (tr : List Event) (td : List Nat) (b0 b1 c : Nat)
    (hbus : s.i2c = some bus)
    (hc : ¬ start - s.stats.last_read_time < MGOS_HTU21DF_READ_DELAY)
    (ht : temp_transfer regs bus s.i2caddr tr = some td) (htc : crc_ok td)
    (hh : hum_transfer regs bus s.i2caddr tr = some [b0, b1, c])
    (hcrc : c = crc8 [b0, b1]) :
    b0 < 256 ∧ b1 < 256 ∧
      raw16 [b0, b1, c] = 256 * b0 + b1 ∧
      (mgos_htu21df_read regs (some s) start finish tr).ret = true ∧
      ∃ s', (mgos_htu21df_read regs (some s) start finish tr).sensor = some s' ∧
        s'.humidity = ((256 * b0 + b1 : ℕ) : ℚ) * 125 / 65536 - 6 ∧
        (b0 = 0x00 ∧ b1 = 0x00 → s'.humidity = -6) ∧
        (b0 = 0xFF ∧ b1 = 0xFF → s'.humidity = 7798659 / 65536 ∧
          118.9980 ≤ s'.humidity ∧ s'.humidity < 118.9981) := by
  obtain ⟨h0, h1, _⟩ := transfer_bytes_lt bus s.i2caddr _ b0 b1 c hh
  have hraw := raw16_eq b0 b1 c h0 h1
  refine ⟨h0, h1, hraw, ?_⟩
  rw [read_ok regs s bus start finish tr td _ hbus hc ht htc hh ((crc_ok_iff b0 b1 c).2 hcrc),
    hraw]
  refine ⟨rfl, _, rfl, rfl, ?_, ?_⟩
  · rintro ⟨rfl, rfl⟩
    norm_num
  · rintro ⟨rfl, rfl⟩
    norm_num

/-- C8 at the smallest raw value: both frames are `00 00 crc8(00 00)`; the read succeeds
with humidity -6, outside [0, 100]. -/
theorem C8_humidity_conversion_witness :
    ¬ (10 - (handle_on zero_scale_bus).stats.last_read_time < MGOS_HTU21DF_READ_DELAY) ∧
      hum_transfer datasheet_opcodes zero_scale_bus 0x40 []
        = some [0x00, 0x00, crc8 [0x00, 0x00]] ∧
      (mgos_htu21df_read datasheet_opcodes (some (handle_on zero_scale_bus)) 10 10.1 []).ret
        = true ∧
      ∃ s', (mgos_htu21df_read datasheet_opcodes (some (handle_on zero_scale_bus)) 10 10.1
            []).sensor = some s' ∧
        s'.humidity = -6 := by
  have hu : ¬ (10 - (handle_on zero_scale_bus).stats.last_read_time
      < MGOS_HTU21DF_READ_DELAY) := by
    norm_num [handle_on, zero_stats, MGOS_HTU21DF_READ_DELAY]
  have ht : temp_transfer datasheet_opcodes zero_scale_bus (handle_on zero_scale_bus).i2caddr
      [] = some [0x00, 0x00, crc8 [0x00, 0x00]] := by
    simp [temp_transfer, temp_request, mgos_i2c_read, zero_scale_bus, List.range_succ]
    decide
  have hh : hum_transfer datasheet_opcodes zero_scale_bus (handle_on zero_scale_bus).i2caddr
      [] = some [0x00, 0x00, crc8 [0x00, 0x00]] := by
    simp [hum_transfer, temp_request, hum_request, mgos_i2c_read, zero_scale_bus,
      List.range_succ]
    decide
  obtain ⟨_, _, _, hret, s', h1, _, h3, _⟩ :=
    C8_humidity_conversion datasheet_opcodes (handle_on zero_scale_bus) zero_scale_bus
      10 10.1 [] _ 0x00 0x00 (crc8 [0x00, 0x00]) rfl hu ht (by decide) hh rfl
  exact ⟨hu, hh, hret, s', h1, h3 ⟨rfl, rfl⟩⟩

/-! ## C9 -/

/-- C9: an uncached read started at clock value `start` in which both 3-byte transfers
succeed with matching checksums returns success; temperature and humidity are the
conversions of the two raw values received, `read_success` and `read` are one higher (as
`uint32_t`, hence exactly one below the maximum), `read_success_cached` is unchanged,
`read_success_usecs` has grown by `1000000 * (finish - start)`, and `last_read_time` is
`start`, the clock value taken on entry, not the one at completion. -/
theorem C9_successful_read (regs : Opcodes) (s : mgos_htu21df) (bus : mgos_i2c)
    (start finish : ℚ) (tr : List Event) (td hd : List Nat) (hbus : s.i2c = some bus)
    (hc : ¬ start - s.stats.last_read_time < MGOS_HTU21DF_READ_DELAY)
    (ht : temp_transfer regs bus s.i2caddr tr = some td) (htc : crc_ok td)
    (hh : hum_transfer regs bus s.i2caddr tr = some hd) (hhc : crc_ok hd) :
    (mgos_htu21df_read regs (some s) start finish tr).ret = true ∧
      ∃ s', (mgos_htu21df_read regs (some s) start finish tr).sensor = some s' ∧
        s'.temperature = (raw16 td : ℚ) * 175.72 / 65536 - 46.85 ∧
        s'.humidity = (raw16 hd : ℚ) * 125 / 65536 - 6 ∧
        s'.stats.read_success = (s.stats.read_success + 1) % 2 ^ 32 ∧
        s'.stats.read = (s.stats.read + 1) % 2 ^ 32 ∧
        (s.stats.read_success + 1 < 2 ^ 32 →
          s'.stats.read_success = s.stats.read_success + 1) ∧
        (s.stats.read + 1 < 2 ^ 32 → s'.stats.read = s.stats.read + 1) ∧
        s'.stats.read_success_cached = s.stats.read_success_cached ∧
        s'.stats.read_success_usecs
          = s.stats.read_success_usecs + 1000000 * (finish - start) ∧
        s'.stats.last_read_time = start := by
  rw [read_ok regs s bus start finish tr td hd hbus hc ht htc hh hhc]
  exact ⟨rfl, _, rfl, rfl, rfl, rfl, rfl, fun h => Nat.mod_eq_of_lt h,
    fun h => Nat.mod_eq_of_lt h, rfl, rfl, rfl⟩

/-- C9 on `scenario_bus`: the read started at clock value 10 and complete at 10.1. -/
theorem C9_successful_read_witness :
    ¬ (10 - (handle_on scenario_bus).stats.last_read_time < MGOS_HTU21DF_READ_DELAY) ∧
      temp_transfer datasheet_opcodes scenario_bus 0x40 [] = some [0x64, 0x00, 0xD6] ∧
      hum_transfer datasheet_opcodes scenario_bus 0x40 [] = some [0x32, 0x00, 0x6B] ∧
      (mgos_htu21df_read datasheet_opcodes (some (handle_on scenario_bus)) 10 10.1 []).ret
        = true ∧
      ∃ s', (mgos_htu21df_read datasheet_opcodes (some (handle_on scenario_bus)) 10 10.1
            []).sensor = some s' ∧
        s'.stats.read_success = 1 ∧ s'.stats.read = 1 ∧ s'.stats.read_success_cached = 0 ∧
        s'.stats.read_success_usecs = 0 + 1000000 * (10.1 - 10) ∧
        s'.stats.last_read_time = 10 := by
  have hu : ¬ (10 - (handle_on scenario_bus).stats.last_read_time
      < MGOS_HTU21DF_READ_DELAY) := by
    norm_num [handle_on, zero_stats, MGOS_HTU21DF_READ_DELAY]
  have ht : temp_transfer datasheet_opcodes scenario_bus (handle_on scenario_bus).i2caddr []
      = some [0x64, 0x00, 0xD6] := by
    simp [temp_transfer, temp_request, mgos_i2c_read, scenario_bus, List.range_succ]
    decide
  have hh : hum_transfer datasheet_opcodes scenario_bus (handle_on scenario_bus).i2caddr []
      = some [0x32, 0x00, 0x6B] := by
    simp [hum_transfer, temp_request, hum_request, mgos_i2c_read, scenario_bus,
      List.range_succ]
    decide
  obtain ⟨hret, s', h1, _, _, h4, h5, _, _, h8, h9, h10⟩ :=
    C9_successful_read datasheet_opcodes (handle_on scenario_bus) scenario_bus 10 10.1 []
      _ _ rfl hu ht (by decide) hh (by decide)
  exact ⟨hu, ht, hh, hret, s', h1, h4, h5, h8, h9, h10⟩

/-! ## C10 -/

/-- C10: for a transport that is present and every address, `mgos_htu21df_create`
(whose allocation succeeds) returns a handle if and only if the one-byte identity read
succeeds and delivers 0x02; when the allocation fails it returns no handle and makes no
bus operation; for a null transport it returns no handle.  A handle that is returned
carries the given transport and address, and its statistics, temperature and humidity
are zero. -/
theorem C10_create_iff_identity (regs : Opcodes) (bus : mgos_i2c) (i2caddr : Nat)
    (tr : List Event) :
    (((mgos_htu21df_create regs (some bus) i2caddr true tr).1).isSome = true ↔
        identity_transfer regs bus i2caddr tr = some [0x02]) ∧
      mgos_htu21df_create regs (some bus) i2caddr false tr = (none, tr) ∧
      (∀ calloc_ok, mgos_htu21df_create regs none i2caddr calloc_ok tr = (none, tr)) ∧
      ∀ calloc_ok h, (mgos_htu21df_create regs (some bus) i2caddr calloc_ok tr).1 = some h →
        h.i2c = some bus ∧ h.i2caddr = i2caddr ∧ h.stats = zero_stats ∧
        h.stats.last_read_time = 0 ∧ counters h = (0, 0, 0) ∧
        h.stats.read_success_usecs = 0 ∧ h.temperature = 0 ∧ h.humidity = 0 := by
  refine ⟨?_, ?_, ?_, ?_⟩
  · simp only [mgos_htu21df_create, cmd_trace, mgos_usleep, identity_transfer,
      probe_request, mgos_i2c_read]
    rcases hr : bus.read (tr ++ [Event.i2c_write i2caddr [regs.MGOS_HTU21DF_RESET],
        Event.usleep 25000, Event.i2c_write i2caddr [regs.MGOS_HTU21DF_READREG]]) i2caddr 1
      with _ | bytes
    · simp [hr]
    · by_cases hv : bytes.getD 0 0 % 256 = 2
      · simp only [List.getD_eq_getElem?_getD] at hv
        simp [hr, hv, List.range_succ]
      · simp only [List.getD_eq_getElem?_getD] at hv
        simp [hr, hv, List.range_succ]
  · simp [mgos_htu21df_create]
  · intro calloc_ok
    simp [mgos_htu21df_create]
  · intro calloc_ok h hcreate
    simp only [mgos_htu21df_create] at hcreate
    split at hcreate
    · cases hcreate
    · split at hcreate
      · cases hcreate
      · split at hcreate
        · cases hcreate
          exact ⟨rfl, rfl, rfl, rfl, rfl, rfl, rfl, rfl⟩
        · cases hcreate

/-! ## C11 -/

/-- The handle of `mgos_htu21df_create` on a transport that is present: there is one
exactly when the allocation succeeds and the identity read delivers 0x02, and it is the
zeroed structure with the transport and the address. -/
theorem create_handle (regs : Opcodes) (bus : mgos_i2c) (i2caddr : Nat) (calloc_ok : Bool)
    (tr : List Event) :
    (mgos_htu21df_create regs (some bus) i2caddr calloc_ok tr).1 =
      if calloc_ok = true ∧ identity_transfer regs bus i2caddr tr = some [0x02] then
        some { i2c := some bus, i2caddr := i2caddr, stats := zero_stats, temperature := 0,
               humidity := 0 }
      else none := by
  cases calloc_ok with
  | false => simp [mgos_htu21df_create]
  | true =>
    simp only [mgos_htu21df_create, cmd_trace, mgos_usleep, identity_transfer,
      probe_request, mgos_i2c_read]
    rcases hr : bus.read (tr ++ [Event.i2c_write i2caddr [regs.MGOS_HTU21DF_RESET],
        Event.usleep 25000, Event.i2c_write i2caddr [regs.MGOS_HTU21DF_READREG]]) i2caddr 1
      with _ | bytes
    · simp [hr]
    · by_cases hv : bytes.getD 0 0 % 256 = 2
      · simp only [List.getD_eq_getElem?_getD] at hv
        simp [hr, hv, List.range_succ]
      · simp only [List.getD_eq_getElem?_getD] at hv
        simp [hr, hv, List.range_succ]

/-- C11, counterexample: on `write_fail_identity_bus` the write of the reset command and
the write of the read-identity-register command both fail, yet `mgos_htu21df_create`
produces a handle, because the one-byte read delivers 0x02. -/
theorem C11_write_failure_still_creates :
    write_fail_identity_bus.write [] 0x40 [datasheet_opcodes.MGOS_HTU21DF_RESET] = false ∧
      write_fail_identity_bus.write
          [Event.i2c_write 0x40 [datasheet_opcodes.MGOS_HTU21DF_RESET], Event.usleep 25000]
          0x40 [datasheet_opcodes.MGOS_HTU21DF_READREG] = false ∧
      (mgos_htu21df_create datasheet_opcodes (some write_fail_identity_bus) 0x40 true []).1
        = some (handle_on write_fail_identity_bus) := by
  refine ⟨rfl, rfl, ?_⟩
  rw [create_handle]
  simp [identity_transfer, probe_request, mgos_i2c_read, write_fail_identity_bus,
    identity_bus, handle_on, List.range_succ]

/-- C11, amended: in every run of `mgos_htu21df_create` in which the one-byte identity
read fails, no handle is produced, whatever the two command writes return.  The results
of the write of the reset command and of the write of the read-identity-register command
are not used: with any other outcomes of the writes and the same reads, a handle is
produced in exactly the same cases. -/
theorem C11_probe_failure (regs : Opcodes) (bus : mgos_i2c) (i2caddr : Nat)
    (calloc_ok : Bool) (tr : List Event)
    (hread : identity_transfer regs bus i2caddr tr = none) :
    (mgos_htu21df_create regs (some bus) i2caddr calloc_ok tr).1 = none ∧
      (∀ w, (mgos_htu21df_create regs (some { bus with write := w }) i2caddr calloc_ok tr).1
        = none) ∧
      ∀ (bus2 : mgos_i2c) w,
        ((mgos_htu21df_create regs (some { bus2 with write := w }) i2caddr calloc_ok
            tr).1).isSome
          = ((mgos_htu21df_create regs (some bus2) i2caddr calloc_ok tr).1).isSome := by
  have hw : ∀ (b : mgos_i2c) w, identity_transfer regs { b with write := w } i2caddr tr
      = identity_transfer regs b i2caddr tr := fun _ _ => rfl
  refine ⟨?_, ?_, ?_⟩
  · rw [create_handle, hread]; simp
  · intro w
    rw [create_handle, hw, hread]; simp
  · intro bus2 w
    rw [create_handle, create_handle, hw]
    split <;> rfl

/-- C11 on `read_fail_bus`, where the identity read fails. -/
theorem C11_probe_failure_witness :
    identity_transfer datasheet_opcodes read_fail_bus 0x40 [] = none ∧
      (mgos_htu21df_create datasheet_opcodes (some read_fail_bus) 0x40 true []).1 = none :=
  ⟨rfl, (C11_probe_failure datasheet_opcodes read_fail_bus 0x40 true [] rfl).1⟩

/-! ## C12 -/

/-- A read with a null handle or a null transport reference returns `false` and leaves
the handle and the history of events as they are. -/
theorem read_null (regs : Opcodes) (sensor : Option mgos_htu21df) (start finish : ℚ)
    (tr : List Event)
    (hnull : sensor = none ∨ ∃ s, sensor = some s ∧ s.i2c = none) :
    mgos_htu21df_read regs sensor start finish tr = ⟨false, sensor, tr⟩ := by
  rcases hnull with rfl | ⟨s, rfl, hs⟩
  · rfl
  · simp [mgos_htu21df_read, hs]

/-- C12: a call of `mgos_htu21df_read` with a missing handle, or with a handle whose
transport reference is missing, returns failure with no side effects: the handle is
exactly as before (no counter, the attempt counter included, and no stored value has
changed) and no bus operation is issued (the history of events is unchanged). -/
theorem C12_invalid_argument (regs : Opcodes) (sensor : Option mgos_htu21df)
    (start finish : ℚ) (tr : List Event)
    (hnull : sensor = none ∨ ∃ s, sensor = some s ∧ s.i2c = none) :
    (mgos_htu21df_read regs sensor start finish tr).ret = false ∧
      (mgos_htu21df_read regs sensor start finish tr).sensor = sensor ∧
      (mgos_htu21df_read regs sensor start finish tr).trace = tr ∧
      (∀ s, sensor = some s →
        ∃ s', (mgos_htu21df_read regs sensor start finish tr).sensor = some s' ∧
          counters s' = counters s ∧ s'.stats = s.stats ∧
          s'.temperature = s.temperature ∧ s'.humidity = s.humidity) := by
  rw [read_null regs sensor start finish tr hnull]
  exact ⟨rfl, rfl, rfl, fun s hs => ⟨s, hs, rfl, rfl, rfl, rfl⟩⟩

/-- C12 on a handle without transport and on the null handle. -/
theorem C12_invalid_argument_witness :
    orphan_handle.i2c = none ∧
      (mgos_htu21df_read datasheet_opcodes (some orphan_handle) 100 101 []).ret = false ∧
      (mgos_htu21df_read datasheet_opcodes (some orphan_handle) 100 101 []).sensor
        = some orphan_handle ∧
      (mgos_htu21df_read datasheet_opcodes (some orphan_handle) 100 101 []).trace = [] ∧
      (mgos_htu21df_read datasheet_opcodes none 100 101 []).ret = false := by
  obtain ⟨h1, h2, h3, _⟩ :=
    C12_invalid_argument datasheet_opcodes (some orphan_handle) 100 101 []
      (Or.inr ⟨orphan_handle, rfl, rfl⟩)
  exact ⟨rfl, h1, h2, h3,
    (C12_invalid_argument datasheet_opcodes none 100 101 [] (Or.inl rfl)).1⟩

/-! ## C13 -/

/-- A read that returns `true` was given a handle, and leaves one. -/
theorem read_true_sensor (regs : Opcodes) (sensor : Option mgos_htu21df) (start finish : ℚ)
    (tr : List Event) (hret : (mgos_htu21df_read regs sensor start finish tr).ret = true) :
    ∃ s', (mgos_htu21df_read regs sensor start finish tr).sensor = some s' := by
  cases sensor with
  | none => simp [mgos_htu21df_read] at hret
  | some s =>
    cases hs : s.i2c with
    | none => simp [mgos_htu21df_read, hs] at hret
    | some bus =>
      obtain ⟨s', h, _⟩ := read_counters regs s bus start finish tr hs
      exact ⟨s', h⟩

/-- The first read of the scenario of the specification. -/
theorem scenario_first_read :
    mgos_htu21df_read datasheet_opcodes (some (handle_on scenario_bus)) 10 10.1 []
      = ⟨true, some scenario_after_first_read, measure_events datasheet_opcodes 0x40⟩ := by
  have hu : ¬ (10 - (handle_on scenario_bus).stats.last_read_time
      < MGOS_HTU21DF_READ_DELAY) := by
    norm_num [handle_on, zero_stats, MGOS_HTU21DF_READ_DELAY]
  have ht : temp_transfer datasheet_opcodes scenario_bus (handle_on scenario_bus).i2caddr []
      = some [0x64, 0x00, 0xD6] := by
    simp [temp_transfer, temp_request, mgos_i2c_read, scenario_bus, List.range_succ]
    decide
  have hh : hum_transfer datasheet_opcodes scenario_bus (handle_on scenario_bus).i2caddr []
      = some [0x32, 0x00, 0x6B] := by
    simp [hum_transfer, temp_request, hum_request, mgos_i2c_read, scenario_bus,
      List.range_succ]
    decide
  rw [read_ok datasheet_opcodes (handle_on scenario_bus) scenario_bus 10 10.1 [] _ _ rfl hu
    ht (by decide) hh (by decide)]
  simp [handle_on, scenario_after_first_read, zero_stats, raw16]
  norm_num

/-- C13: for every handle (null or not), clock value and bus behaviour,
`mgos_htu21df_getTemperature` and `mgos_htu21df_getHumidity` leave the handle and the
history of events exactly as one `mgos_htu21df_read` leaves them, return the
not-a-number value (`none`) if and only if that read fails, and when the read succeeds
return the temperature, respectively the humidity, stored in the handle after the read. -/
theorem C13_getters (regs : Opcodes) (sensor : Option mgos_htu21df) (start finish : ℚ)
    (tr : List Event) :
    (mgos_htu21df_getTemperature regs sensor start finish tr).sensor
        = (mgos_htu21df_read regs sensor start finish tr).sensor ∧
      (mgos_htu21df_getTemperature regs sensor start finish tr).trace
        = (mgos_htu21df_read regs sensor start finish tr).trace ∧
      ((mgos_htu21df_getTemperature regs sensor start finish tr).ret = none ↔
        (mgos_htu21df_read regs sensor start finish tr).ret = false) ∧
      (mgos_htu21df_getHumidity regs sensor start finish tr).sensor
        = (mgos_htu21df_read regs sensor start finish tr).sensor ∧
      (mgos_htu21df_getHumidity regs sensor start finish tr).trace
        = (mgos_htu21df_read regs sensor start finish tr).trace ∧
      ((mgos_htu21df_getHumidity regs sensor start finish tr).ret = none ↔
        (mgos_htu21df_read regs sensor start finish tr).ret = false) ∧
      ((mgos_htu21df_read regs sensor start finish tr).ret = true →
        ∃ s', (mgos_htu21df_read regs sensor start finish tr).sensor = some s' ∧
          (mgos_htu21df_getTemperature regs sensor start finish tr).ret
            = some s'.temperature ∧
          (mgos_htu21df_getHumidity regs sensor start finish tr).ret
            = some s'.humidity) := by
  cases hr : (mgos_htu21df_read regs sensor start finish tr).ret with
  | false =>
    simp [mgos_htu21df_getTemperature, mgos_htu21df_getHumidity, hr]
  | true =>
    obtain ⟨s', hs'⟩ := read_true_sensor regs sensor start finish tr hr
    simp [mgos_htu21df_getTemperature, mgos_htu21df_getHumidity, hr, hs']

/-- C13 on the scenario of the specification: the getters at clock value 10 return the
values of the measurement, and on a handle without transport they return not-a-number. -/
theorem C13_getters_witness :
    (mgos_htu21df_read datasheet_opcodes (some (handle_on scenario_bus)) 10 10.1 []).ret
        = true ∧
      (mgos_htu21df_getTemperature datasheet_opcodes (some (handle_on scenario_bus)) 10 10.1
          []).ret = some 21.790625 ∧
      (mgos_htu21df_getHumidity datasheet_opcodes (some (handle_on scenario_bus)) 10 10.1
          []).ret = some 18.4140625 ∧
      (mgos_htu21df_getTemperature datasheet_opcodes (some orphan_handle) 10 10.1 []).ret
        = none := by
  have hret : (mgos_htu21df_read datasheet_opcodes (some (handle_on scenario_bus)) 10 10.1
      []).ret = true := by
    rw [scenario_first_read]
  obtain ⟨_, _, _, _, _, _, h⟩ :=
    C13_getters datasheet_opcodes (some (handle_on scenario_bus)) 10 10.1 []
  obtain ⟨s', hs', ht, hh⟩ := h hret
  rw [scenario_first_read] at hs'
  cases hs'
  refine ⟨hret, ht, hh, ?_⟩
  exact (C13_getters datasheet_opcodes (some orphan_handle) 10 10.1 []).2.2.1.2
    (read_null datasheet_opcodes (some orphan_handle) 10 10.1 []
      (Or.inr ⟨orphan_handle, rfl, rfl⟩) ▸ rfl)

/-! ## C14 -/

/-- C14: `mgos_htu21df_getStats` fails if and only if the handle or the destination is
absent; otherwise it returns success and the destination holds a snapshot equal, field
for field, to the statistics of the handle.  The call does not change the handle (it is
not among the results of the function, and a `getStats` call leaves the state of a run
as it is).  The snapshot is a value: a later read on the handle gives a new handle state,
with another attempt counter, while the snapshot still has the fields of the statistics
at the time of the call. -/
theorem C14_getStats_snapshot (sensor : Option mgos_htu21df)
    (dest : Option mgos_htu21df_stats) :
    ((mgos_htu21df_getStats sensor dest).1 = false ↔ sensor = none ∨ dest = none) ∧
      (∀ s d, sensor = some s → dest = some d →
        mgos_htu21df_getStats sensor dest = (true, some s.stats) ∧
        ∃ snap, (mgos_htu21df_getStats sensor dest).2 = some snap ∧
          snap.last_read_time = s.stats.last_read_time ∧
          snap.read = s.stats.read ∧
          snap.read_success = s.stats.read_success ∧
          snap.read_success_cached = s.stats.read_success_cached ∧
          snap.read_success_usecs = s.stats.read_success_usecs) ∧
      (∀ regs st, step regs st (Call.getStats dest) = st) ∧
      ∀ regs s d bus start finish tr, sensor = some s → dest = some d → s.i2c = some bus →
        ∃ s', (mgos_htu21df_read regs sensor start finish tr).sensor = some s' ∧
          s'.stats.read = (s.stats.read + 1) % 2 ^ 32 ∧
          s'.stats.read ≠ s.stats.read ∧
          (mgos_htu21df_getStats sensor dest).2 = some s.stats := by
  refine ⟨?_, ?_, ?_, ?_⟩
  · cases sensor <;> cases dest <;> simp [mgos_htu21df_getStats]
  · rintro s d rfl rfl
    exact ⟨rfl, s.stats, rfl, rfl, rfl, rfl, rfl, rfl⟩
  · intro regs st
    rfl
  · rintro regs s d bus start finish tr rfl rfl hbus
    obtain ⟨s', h1, _, h3, _⟩ := read_counters regs s bus start finish tr hbus
    refine ⟨s', h1, h3, ?_, rfl⟩
    rw [h3]
    omega

/-- C14 on the scenario of the specification: the snapshot taken after the first read
keeps `read = 1` while the read at clock value 11 leaves a handle with `read = 2`; with a
null destination or a null handle the call fails. -/
theorem C14_getStats_snapshot_witness :
    mgos_htu21df_getStats (some scenario_after_first_read) (some zero_stats)
        = (true, some scenario_after_first_read.stats) ∧
      (∃ s', (mgos_htu21df_read datasheet_opcodes (some scenario_after_first_read) 11 11
            []).sensor = some s' ∧
        s'.stats.read = 2 ∧
        (mgos_htu21df_getStats (some scenario_after_first_read) (some zero_stats)).2
          = some scenario_after_first_read.stats ∧
        scenario_after_first_read.stats.read = 1) ∧
      (mgos_htu21df_getStats (some scenario_after_first_read) none).1 = false ∧
      (mgos_htu21df_getStats none (some zero_stats)).1 = false := by
  obtain ⟨_, h2, _, h4⟩ :=
    C14_getStats_snapshot (some scenario_after_first_read) (some zero_stats)
  obtain ⟨s', hs', hread, _, hsnap⟩ :=
    h4 datasheet_opcodes scenario_after_first_read zero_stats scenario_bus 11 11 [] rfl rfl
      rfl
  refine ⟨(h2 _ _ rfl rfl).1, ⟨s', hs', hread, hsnap, rfl⟩, ?_, ?_⟩
  · exact (C14_getStats_snapshot (some scenario_after_first_read) none).1.2 (Or.inr rfl)
  · exact (C14_getStats_snapshot none (some zero_stats)).1.2 (Or.inl rfl)

/-! ## C17 -/

/-- C17, refuted: there is no call of `mgos_htu21df_read` with a null handle or a null
transport reference after which the attempt counter differs from the one before. -/
theorem C17_no_increment_on_null :
    ¬ ∃ (regs : Opcodes) (sensor : Option mgos_htu21df) (start finish : ℚ)
        (tr : List Event),
      (sensor = none ∨ ∃ s, sensor = some s ∧ s.i2c = none) ∧
        (mgos_htu21df_read regs sensor start finish tr).sensor.map (fun x => x.stats.read)
          ≠ sensor.map (fun x => x.stats.read) := by
  rintro ⟨regs, sensor, start, finish, tr, hnull, hne⟩
  rw [read_null regs sensor start finish tr hnull] at hne
  exact hne rfl

/-- C17, amended: in `mgos_htu21df_read` the null check comes before the increment of
`stats.read`.  On every call with a null handle or a null transport reference the read
returns failure and the attempt counter, like the rest of the handle, is unchanged; the
attempt counter is incremented exactly on the calls whose handle and transport reference
are both present. -/
theorem C17_increment_after_null_check (regs : Opcodes) (sensor : Option mgos_htu21df)
    (start finish : ℚ) (tr : List Event) :
    ((sensor = none ∨ ∃ s, sensor = some s ∧ s.i2c = none) →
        (mgos_htu21df_read regs sensor start finish tr).ret = false ∧
        (mgos_htu21df_read regs sensor start finish tr).sensor = sensor ∧
        (mgos_htu21df_read regs sensor start finish tr).sensor.map (fun x => x.stats.read)
          = sensor.map (fun x => x.stats.read)) ∧
      (∀ s bus, sensor = some s → s.i2c = some bus →
        ∃ s', (mgos_htu21df_read regs sensor start finish tr).sensor = some s' ∧
          s'.stats.read = (s.stats.read + 1) % 2 ^ 32 ∧
          s'.stats.read ≠ s.stats.read) := by
  constructor
  · intro hnull
    rw [read_null regs sensor start finish tr hnull]
    exact ⟨rfl, rfl, rfl⟩
  · rintro s bus rfl hbus
    obtain ⟨s', h1, _, h3, _⟩ := read_counters regs s bus start finish tr hbus
    refine ⟨s', h1, h3, ?_⟩
    rw [h3]
    omega

/-- C17 on a handle without transport, whose attempt counter stays 7, and on the handle
of the scenario, whose attempt counter goes from 1 to 2. -/
theorem C17_increment_after_null_check_witness :
    orphan_handle.i2c = none ∧
      (mgos_htu21df_read datasheet_opcodes (some orphan_handle) 100 101 []).ret = false ∧
      (mgos_htu21df_read datasheet_opcodes (some orphan_handle) 100 101 []).sensor.map
          (fun x => x.stats.read) = some 7 ∧
      ∃ s', (mgos_htu21df_read datasheet_opcodes (some scenario_after_first_read) 11 11
            []).sensor = some s' ∧
        s'.stats.read = 2 := by
  obtain ⟨h1, _⟩ := C17_increment_after_null_check datasheet_opcodes (some orphan_handle)
    100 101 []
  obtain ⟨hret, _, hmap⟩ := h1 (Or.inr ⟨orphan_handle, rfl, rfl⟩)
  obtain ⟨_, h2⟩ := C17_increment_after_null_check datasheet_opcodes
    (some scenario_after_first_read) 11 11 []
  obtain ⟨s', hs', hread, _⟩ := h2 scenario_after_first_read scenario_bus rfl rfl
  exact ⟨rfl, hret, hmap, s', hs', hread⟩

/-! ## C15 -/

theorem flip_bit_frame (a b c p : Nat) (hp : p < 24) :
    flip_bit [a, b, c] p
      = [a ^^^ error_byte 0 p, b ^^^ error_byte 1 p, c ^^^ error_byte 2 p] := by
  have h : p / 8 = 0 ∨ p / 8 = 1 ∨ p / 8 = 2 := by omega
  rcases h with h | h | h <;> simp [flip_bit, flip_at, error_byte, h]

theorem error_byte_lt (i p : Nat) : error_byte i p < 256 := by
  unfold error_byte
  split
  · have h : p % 8 < 8 := Nat.mod_lt _ (by norm_num)
    calc 2 ^ (p % 8) < 2 ^ 8 := Nat.pow_lt_pow_right (by norm_num) h
      _ = 256 := by norm_num
  · norm_num

/-- The checksum of two bytes is linear over GF(2). -/
theorem crc8_pair_xor (a b x y : Nat) (ha : a < 256) (hb : b < 256) (hx : x < 256)
    (hy : y < 256) :
    crc8 [a ^^^ x, b ^^^ y] = crc8 [a, b] ^^^ crc8 [x, y] := by
  have hax : a ^^^ x < 256 := Nat.xor_lt_two_pow (n := 8) ha hx
  have hby : b ^^^ y < 256 := Nat.xor_lt_two_pow (n := 8) hb hy
  have h1 : ∀ u v, u < 256 → v < 256 →
      crc8 [u, v] = crc8_inner 8 (crc8_inner 8 u ^^^ v) := by
    intro u v hu hv
    have huv : crc8_inner 8 u ^^^ v < 256 :=
      Nat.xor_lt_two_pow (n := 8) (crc8_inner_lt 8 u hu) hv
    simp only [crc8, crc8_outer, Nat.zero_xor, Nat.mod_eq_of_lt hu, Nat.mod_eq_of_lt huv]
  rw [h1 _ _ hax hby, h1 _ _ ha hb, h1 _ _ hx hy,
    ← crc8_inner_xor 8 (crc8_inner 8 a ^^^ b) (crc8_inner 8 x ^^^ y), crc8_inner_xor 8 a x]
  congr 1
  simp [Nat.xor_assoc, Nat.xor_comm, nat_xor_left_comm]

theorem crc8_lt (data : List Nat) : crc8 data < 256 := by
  have h : ∀ (l : List Nat) (c : Nat), c < 256 → crc8_outer l c < 256 := by
    intro l
    induction l with
    | nil => intro c hc; exact hc
    | cons b rest ih =>
      intro c _
      exact ih _ (crc8_inner_lt 8 _ (Nat.mod_lt _ (by norm_num)))
  exact h data 0 (by norm_num)

/-- A frame with a valid checksum to which the error `e0 e1 e2` is added passes the test
exactly when the error is itself a frame with a valid checksum. -/
theorem crc_ok_error (d0 d1 e0 e1 e2 : Nat) (h0 : d0 < 256) (h1 : d1 < 256)
    (he0 : e0 < 256) (he1 : e1 < 256) :
    crc_ok [d0 ^^^ e0, d1 ^^^ e1, crc8 [d0, d1] ^^^ e2] ↔ e2 = crc8 [e0, e1] := by
  simp only [crc_ok, List.getD_cons_zero, List.getD_cons_succ, List.take_succ_cons,
    List.take_zero]
  rw [crc8_pair_xor d0 d1 e0 e1 h0 h1 he0 he1]
  exact Nat.xor_right_inj

set_option maxRecDepth 1000000 in
theorem single_error (i : Nat) (hi : i < 24) :
    error_byte 2 i ≠ crc8 [error_byte 0 i, error_byte 1 i] := by
  have key : ∀ i < 24, error_byte 2 i ≠ crc8 [error_byte 0 i, error_byte 1 i] := by decide
  exact key i hi

set_option maxRecDepth 1000000 in
theorem double_error (i j : Nat) (hi : i < 24) (hj : j < 24) (hij : i ≠ j) :
    error_byte 2 i ^^^ error_byte 2 j
      ≠ crc8 [error_byte 0 i ^^^ error_byte 0 j, error_byte 1 i ^^^ error_byte 1 j] := by
  have key : ∀ i < 24, ∀ j < 24, i ≠ j →
      error_byte 2 i ^^^ error_byte 2 j
        ≠ crc8 [error_byte 0 i ^^^ error_byte 0 j, error_byte 1 i ^^^ error_byte 1 j] := by
    decide!
  exact key i hi j hj hij

set_option maxRecDepth 1000000 in
theorem triple_errors_detected_eq : triple_errors_detected = true := by decide!

theorem triple_error_sorted (i j k : Nat) (hk : k < 24) (hij : i < j) (hjk : j < k) :
    error_byte 2 i ^^^ error_byte 2 j ^^^ error_byte 2 k
      ≠ crc8 [error_byte 0 i ^^^ error_byte 0 j ^^^ error_byte 0 k,
          error_byte 1 i ^^^ error_byte 1 j ^^^ error_byte 1 k] := by
  have h := triple_errors_detected_eq
  simp only [triple_errors_detected, List.all_eq_true, List.mem_range] at h
  have h' := h i (by omega) j (by omega) k hk
  simpa [hij, hjk] using h'

theorem xor3_perm1 (a b c : Nat) : a ^^^ b ^^^ c = a ^^^ c ^^^ b := by
  rw [Nat.xor_assoc, Nat.xor_comm b c, ← Nat.xor_assoc]

theorem xor3_perm2 (a b c : Nat) : a ^^^ b ^^^ c = b ^^^ a ^^^ c := by
  rw [Nat.xor_comm a b]

theorem triple_error (i j k : Nat) (hi : i < 24) (hj : j < 24) (hk : k < 24) (hij : i ≠ j)
    (hik : i ≠ k) (hjk : j ≠ k) :
    error_byte 2 i ^^^ error_byte 2 j ^^^ error_byte 2 k
      ≠ crc8 [error_byte 0 i ^^^ error_byte 0 j ^^^ error_byte 0 k,
          error_byte 1 i ^^^ error_byte 1 j ^^^ error_byte 1 k] := by
  rcases Nat.lt_or_gt_of_ne hij with h1 | h1 <;>
    rcases Nat.lt_or_gt_of_ne hik with h2 | h2 <;>
    rcases Nat.lt_or_gt_of_ne hjk with h3 | h3
  · exact triple_error_sorted i j k hk h1 h3
  · -- i < j, i < k, k < j
    have := triple_error_sorted i k j hj h2 h3
    rwa [xor3_perm1 _ (error_byte 2 k), xor3_perm1 _ (error_byte 0 k),
      xor3_perm1 _ (error_byte 1 k)] at this
  · omega
  · -- i < j, k < i
    have := triple_error_sorted k i j hj h2 h1
    rwa [xor3_perm2 (error_byte 2 k), xor3_perm1 (error_byte 2 i),
      xor3_perm2 (error_byte 0 k), xor3_perm1 (error_byte 0 i),
      xor3_perm2 (error_byte 1 k), xor3_perm1 (error_byte 1 i)] at this
  · -- j < i, i < k
    have := triple_error_sorted j i k hk h1 h2
    rwa [xor3_perm2 (error_byte 2 j), xor3_perm2 (error_byte 0 j),
      xor3_perm2 (error_byte 1 j)] at this
  · omega
  · -- j < i, k < i, j < k : j < k < i
    have := triple_error_sorted j k i hi h3 h2
    rwa [xor3_perm1 (error_byte 2 j), xor3_perm2 (error_byte 2 j),
      xor3_perm1 (error_byte 0 j), xor3_perm2 (error_byte 0 j),
      xor3_perm1 (error_byte 1 j), xor3_perm2 (error_byte 1 j)] at this
  · -- k < j < i
    have := triple_error_sorted k j i hi h3 h1
    rwa [xor3_perm1 (error_byte 2 k), xor3_perm2 (error_byte 2 k),
      xor3_perm1 (error_byte 2 i), xor3_perm1 (error_byte 0 k), xor3_perm2 (error_byte 0 k),
      xor3_perm1 (error_byte 0 i), xor3_perm1 (error_byte 1 k), xor3_perm2 (error_byte 1 k),
      xor3_perm1 (error_byte 1 i)] at this

/-- C15: the checksum test of `mgos_htu21df_read` (the third byte is the `crc8` of the
first two) detects every error of one, two or three flipped bits: for every pair of data
bytes `d0`, `d1` and every list `ps` of one to three different bit positions among the 24
bits of the frame `[d0, d1, crc8 [d0, d1]]`, the frame with those bits flipped fails the
test, so a transfer that delivers it is not accepted. -/
theorem C15_detects_up_to_three_bit_errors (d0 d1 : Nat) (h0 : d0 < 256) (h1 : d1 < 256)
    (ps : List Nat) (hnodup : ps.Nodup) (hpos : ∀ p ∈ ps, p < 24) (hne : 1 ≤ ps.length)
    (hle : ps.length ≤ 3) :
    ¬ crc_ok (flip_bits [d0, d1, crc8 [d0, d1]] ps) ∧
      ¬ accepted (some (flip_bits [d0, d1, crc8 [d0, d1]] ps)) := by
  have hb := error_byte_lt
  have hx : ∀ a b : Nat, a < 256 → b < 256 → a ^^^ b < 256 :=
    fun a b ha hb => Nat.xor_lt_two_pow (n := 8) ha hb
  suffices h : ¬ crc_ok (flip_bits [d0, d1, crc8 [d0, d1]] ps) from ⟨h, h⟩
  match ps, hnodup, hpos, hne, hle with
  | [], _, _, hne, _ => simp at hne
  | [i], _, hpos, _, _ =>
    have hi : i < 24 := hpos i (by simp)
    simp only [flip_bits, List.foldl_cons, List.foldl_nil, flip_bit_frame _ _ _ _ hi]
    rw [crc_ok_error d0 d1 _ _ _ h0 h1 (hb 0 i) (hb 1 i)]
    exact single_error i hi
  | [i, j], hnodup, hpos, _, _ =>
    have hi : i < 24 := hpos i (by simp)
    have hj : j < 24 := hpos j (by simp)
    have hij : i ≠ j := by
      intro h; subst h; simp at hnodup
    simp only [flip_bits, List.foldl_cons, List.foldl_nil, flip_bit_frame _ _ _ _ hi,
      flip_bit_frame _ _ _ _ hj, Nat.xor_assoc]
    rw [crc_ok_error d0 d1 _ _ _ h0 h1 (hx _ _ (hb 0 i) (hb 0 j))
      (hx _ _ (hb 1 i) (hb 1 j))]
    exact double_error i j hi hj hij
  | [i, j, k], hnodup, hpos, _, _ =>
    have hi : i < 24 := hpos i (by simp)
    have hj : j < 24 := hpos j (by simp)
    have hk : k < 24 := hpos k (by simp)
    have hd : i ≠ j ∧ i ≠ k ∧ j ≠ k := by
      simp only [List.nodup_cons, List.mem_cons, List.mem_singleton, not_or,
        List.not_mem_nil, not_false_eq_true, List.nodup_nil, and_true] at hnodup
      exact ⟨hnodup.1.1, hnodup.1.2, hnodup.2⟩
    simp only [flip_bits, List.foldl_cons, List.foldl_nil, flip_bit_frame _ _ _ _ hi,
      flip_bit_frame _ _ _ _ hj, flip_bit_frame _ _ _ _ hk]
    rw [Nat.xor_assoc d0, Nat.xor_assoc d0, Nat.xor_assoc d1, Nat.xor_assoc d1,
      Nat.xor_assoc (crc8 [d0, d1]), Nat.xor_assoc (crc8 [d0, d1])]
    rw [crc_ok_error d0 d1 _ _ _ h0 h1 (hx _ _ (hx _ _ (hb 0 i) (hb 0 j)) (hb 0 k))
      (hx _ _ (hx _ _ (hb 1 i) (hb 1 j)) (hb 1 k))]
    exact triple_error i j k hi hj hk hd.1 hd.2.1 hd.2.2
  | _ :: _ :: _ :: _ :: _, _, _, _, hle => simp at hle

/-- C15 on the temperature frame of the scenario, `64 00 D6`, with the bits at the
positions 0, 9 and 23 flipped. -/
theorem C15_detects_up_to_three_bit_errors_witness :
    [0, 9, 23].Nodup ∧ (∀ p ∈ [0, 9, 23], p < 24) ∧
      flip_bits [0x64, 0x00, crc8 [0x64, 0x00]] [0, 9, 23] = [0x65, 0x02, 0x56] ∧
      ¬ crc_ok (flip_bits [0x64, 0x00, crc8 [0x64, 0x00]] [0, 9, 23]) := by
  have hn : [0, 9, 23].Nodup := by decide
  have hp : ∀ p ∈ [0, 9, 23], p < 24 := by decide
  exact ⟨hn, hp, by decide,
    (C15_detects_up_to_three_bit_errors 0x64 0x00 (by decide) (by decide) [0, 9, 23] hn hp
      (by decide) (by decide)).1⟩

/-! ## C16 -/

/-- C16: in exact rational arithmetic both conversions of `mgos_htu21df_read` are strictly
increasing in the raw value and bounded.  For every pair of data bytes the raw value is
`256 * b0 + b1`, at most 65535 (the `uint16_t` assignment does not truncate); the
temperature `raw * 175.72 / 65536 - 46.85` lies in [-46.85, 128.87) and the humidity
`raw * 125 / 65536 - 6` lies in [-6, 119); a larger raw value gives a strictly larger
temperature and a strictly larger humidity.  These conversions are the values that a
successful read stores. -/
theorem C16_conversions_monotone_bounded (b0 b1 c : Nat) (h0 : b0 < 256) (h1 : b1 < 256) :
    raw16 [b0, b1, c] = 256 * b0 + b1 ∧
      raw16 [b0, b1, c] ≤ 65535 ∧
      -46.85 ≤ temperature_of_raw (raw16 [b0, b1, c]) ∧
      temperature_of_raw (raw16 [b0, b1, c]) < 128.87 ∧
      -6 ≤ humidity_of_raw (raw16 [b0, b1, c]) ∧
      humidity_of_raw (raw16 [b0, b1, c]) < 119 ∧
      (∀ r1 r2 : Nat, r1 < r2 →
        temperature_of_raw r1 < temperature_of_raw r2 ∧
        humidity_of_raw r1 < humidity_of_raw r2) ∧
      ∀ (regs : Opcodes) (s : mgos_htu21df) (bus : mgos_i2c) (start finish : ℚ)
        (tr : List Event) (td hd : List Nat), s.i2c = some bus →
        ¬ start - s.stats.last_read_time < MGOS_HTU21DF_READ_DELAY →
        temp_transfer regs bus s.i2caddr tr = some td → crc_ok td →
        hum_transfer regs bus s.i2caddr tr = some hd → crc_ok hd →
        ∃ s', (mgos_htu21df_read regs (some s) start finish tr).sensor = some s' ∧
          s'.temperature = temperature_of_raw (raw16 td) ∧
          s'.humidity = humidity_of_raw (raw16 hd) := by
  have hraw := raw16_eq b0 b1 c h0 h1
  have hle : 256 * b0 + b1 ≤ 65535 := by omega
  have hq : ((256 * b0 + b1 : ℕ) : ℚ) ≤ 65535 := by exact_mod_cast hle
  have hq0 : (0 : ℚ) ≤ ((256 * b0 + b1 : ℕ) : ℚ) := Nat.cast_nonneg _
  rw [hraw]
  refine ⟨rfl, hle, ?_, ?_, ?_, ?_, ?_, ?_⟩
  · unfold temperature_of_raw
    have : (0 : ℚ) ≤ ((256 * b0 + b1 : ℕ) : ℚ) * 175.72 / 65536 := by positivity
    linarith
  · unfold temperature_of_raw
    have : ((256 * b0 + b1 : ℕ) : ℚ) * 175.72 / 65536 ≤ 65535 * 175.72 / 65536 := by
      apply div_le_div_of_nonneg_right _ (by norm_num)
      exact mul_le_mul_of_nonneg_right hq (by norm_num)
    have h2 : (65535 : ℚ) * 175.72 / 65536 - 46.85 < 128.87 := by norm_num
    linarith
  · unfold humidity_of_raw
    have : (0 : ℚ) ≤ ((256 * b0 + b1 : ℕ) : ℚ) * 125 / 65536 := by positivity
    linarith
  · unfold humidity_of_raw
    have : ((256 * b0 + b1 : ℕ) : ℚ) * 125 / 65536 ≤ 65535 * 125 / 65536 := by
      apply div_le_div_of_nonneg_right _ (by norm_num)
      exact mul_le_mul_of_nonneg_right hq (by norm_num)
    have h2 : (65535 : ℚ) * 125 / 65536 - 6 < 119 := by norm_num
    linarith
  · intro r1 r2 hlt
    have hq : (r1 : ℚ) < (r2 : ℚ) := by exact_mod_cast hlt
    unfold temperature_of_raw humidity_of_raw
    constructor
    · have : (r1 : ℚ) * 175.72 / 65536 < (r2 : ℚ) * 175.72 / 65536 := by
        apply div_lt_div_of_pos_right _ (by norm_num)
        exact mul_lt_mul_of_pos_right hq (by norm_num)
      linarith
    · have : (r1 : ℚ) * 125 / 65536 < (r2 : ℚ) * 125 / 65536 := by
        apply div_lt_div_of_pos_right _ (by norm_num)
        exact mul_lt_mul_of_pos_right hq (by norm_num)
      linarith
  · intro regs s bus start finish tr td hd hbus hc ht htc hh hhc
    rw [read_ok regs s bus start finish tr td hd hbus hc ht htc hh hhc]
    exact ⟨_, rfl, rfl, rfl⟩

/-- C16 at the data bytes `64 00` of the scenario. -/
theorem C16_conversions_monotone_bounded_witness :
    (0x64 < 256 ∧ 0x00 < 256) ∧
      raw16 [0x64, 0x00, 0xD6] = 25600 ∧
      -46.85 ≤ temperature_of_raw (raw16 [0x64, 0x00, 0xD6]) ∧
      temperature_of_raw (raw16 [0x64, 0x00, 0xD6]) < 128.87 ∧
      temperature_of_raw 25600 < temperature_of_raw 25601 := by
  obtain ⟨h1, _, h3, h4, _, _, h7, _⟩ :=
    C16_conversions_monotone_bounded 0x64 0x00 0xD6 (by decide) (by decide)
  exact ⟨⟨by decide, by decide⟩, h1, h3, h4, (h7 25600 25601 (by decide)).1⟩

end Htu21df
